import Mathlib

/-!
Verification of the supply-chain analytics engine (`src/analytics.py`).

The analytics code computes with pandas/numpy over tabular data.  We embed
the tables as lists of structures over exact rationals, and the two numeric
primitives the formulas rely on:

* `np.sqrt` composed with `np.round` (used for safety stock, reorder points
  and EOQ) is embedded by the computable function `npRoundAddSqrt p x`,
  which equals the half-even rounding of `p + Real.sqrt x`; the bridge is
  proved below (`npRoundAddSqrt_isNpRound`).
* `np.round` on rationals (`.round(0)`, `.round(2)`) is embedded by
  `npRoundQ` (round half to even, numpy's rule).

All dataframe operations (merge, filter, groupby) are embedded as list
operations.  `groupby` keys are emitted in first-occurrence order; pandas
emits them sorted, which only permutes result rows and is irrelevant to
every property proved here.
-/

/-- Floor of the square root of a nonnegative rational: `⌊√(p/q)⌋ = ⌊√(p·q)/q⌋`. -/
def ratFloorSqrt (x : ℚ) : ℕ :=
  Nat.sqrt (x.num.toNat * x.den) / x.den

/-- Floor of `c + √x` for rationals `c` and `x ≥ 0`, computed exactly. -/
def floorAddSqrt (c x : ℚ) : ℤ :=
  if ((ratFloorSqrt x : ℚ) + 1 - Int.fract c) ^ 2 ≤ x then ⌊c⌋ + ratFloorSqrt x + 1
  else ⌊c⌋ + ratFloorSqrt x

/-- numpy's scalar rounding of a rational to an integer: round half to even. -/
def npRoundQ (y : ℚ) : ℤ :=
  if Int.fract y = 1 / 2 then (if ⌊y⌋ % 2 = 0 then ⌊y⌋ else ⌊y⌋ + 1)
  else ⌊y + 1 / 2⌋

/-- numpy's half-even rounding of `p + √x` (`np.round(p + np.sqrt(x))`),
for rationals `p` and `x ≥ 0`, computed exactly: the tie `p + √x = n + 1/2`
happens only when `x` is the square of the rational `n + 1/2 - p`. -/
def npRoundAddSqrt (p x : ℚ) : ℤ :=
  if 0 ≤ (floorAddSqrt p x : ℚ) + 1 / 2 - p ∧
      x = ((floorAddSqrt p x : ℚ) + 1 / 2 - p) ^ 2 then
    (if floorAddSqrt p x % 2 = 0 then floorAddSqrt p x else floorAddSqrt p x + 1)
  else floorAddSqrt (p + 1 / 2) x

/-- Specification of numpy's half-even rounding of a real number. -/
def IsNpRound (y : ℝ) (n : ℤ) : Prop :=
  |y - (n : ℝ)| ≤ 1 / 2 ∧ (|y - (n : ℝ)| = 1 / 2 → n % 2 = 0)

/-!
Data model: one structure per input table, with the column names of the
CSV schemas (`products.csv`, `inventory.csv`, ...).  Dates are embedded as
integers (days); money and rates as exact rationals.
-/

structure Product where
  product_id : ℕ
  sku : String
  product_name : String
  category_id : ℕ
  unit_cost : ℚ
  unit_price : ℚ
  lead_time_days : ℕ

structure Warehouse where
  warehouse_id : ℕ
  warehouse_code : String
  warehouse_name : String

structure Supplier where
  supplier_id : ℕ
  supplier_code : String
  supplier_name : String
  quality_rating : ℚ

structure InventoryRecord where
  warehouse_id : ℕ
  product_id : ℕ
  quantity_on_hand : ℕ
  quantity_reserved : ℕ
  reorder_point : ℕ
  reorder_quantity : ℕ

structure SalesOrder where
  so_id : ℕ
  warehouse_id : ℕ
  order_date : ℤ
  status : String

structure SalesOrderItem where
  so_id : ℕ
  product_id : ℕ
  quantity_ordered : ℕ
  unit_price : ℚ

structure PurchaseOrder where
  po_id : ℕ
  supplier_id : ℕ
  warehouse_id : ℕ
  order_date : ℤ
  expected_delivery_date : ℤ
  actual_delivery_date : Option ℤ
  status : String

structure PurchaseOrderItem where
  po_id : ℕ
  product_id : ℕ
  quantity_ordered : ℕ
  quantity_received : ℕ
  unit_cost : ℚ

structure ProductCategory where
  category_id : ℕ
  category_name : String

/-- The loaded data snapshot (`_load_data` of the source classes). -/
structure Dataset where
  products : List Product
  warehouses : List Warehouse
  suppliers : List Supplier
  inventory : List InventoryRecord
  sales_orders : List SalesOrder
  sales_order_items : List SalesOrderItem
  purchase_orders : List PurchaseOrder
  purchase_order_items : List PurchaseOrderItem
  product_categories : List ProductCategory

/-- Mean of a list of rationals (`pandas` `mean`); `0` on the empty list,
which the pipelines below never feed it. -/
def listMeanQ (l : List ℚ) : ℚ := l.sum / l.length

/-- Sample variance with denominator `n - 1` (`pandas` `std` squared,
`ddof = 1`); `none` when fewer than two observations, where pandas
produces `NaN`.  The source only ever uses the standard deviation squared,
so we carry the variance and never need the square root. -/
def sampleVarQ (l : List ℚ) : Option ℚ :=
  if l.length ≤ 1 then none
  else some ((l.map (fun v => (v - listMeanQ l) ^ 2)).sum / ((l.length : ℚ) - 1))

/-- Deduplication against an accumulator of already-seen keys. -/
def dedupSeen {α : Type} [BEq α] : List α → List α → List α
  | _, [] => []
  | seen, a :: t =>
    if seen.contains a then dedupSeen seen t else a :: dedupSeen (a :: seen) t

/-- Group keys in first-occurrence order (pandas `groupby` emits them
sorted; the difference only permutes result rows). -/
def dedupFO {α : Type} [BEq α] (l : List α) : List α := dedupSeen [] l

/-- Python truthiness of an optional integer argument: `if product_id:`
is `False` both for `None` and for `0`. -/
def truthyNat : Option ℕ → Bool
  | none => false
  | some n => n != 0

/-- Inner merge of sales orders with their line items on `so_id`
(`sales_orders.merge(sales_order_items, on='so_id')`). -/
def soJoin (orders : List SalesOrder) (items : List SalesOrderItem) :
    List (SalesOrder × SalesOrderItem) :=
  orders.flatMap (fun o =>
    (items.filter (fun it => it.so_id == o.so_id)).map (fun it => (o, it)))

/-- Latest order date of the whole `sales_orders` table
(`sales_orders['order_date'].max()`), cancelled orders included. -/
def maxOrderDate (orders : List SalesOrder) : Option ℤ :=
  (orders.map (fun o => o.order_date)).max?

/-- Orders inside the trailing window and not cancelled
(`(order_date >= cutoff) & (status != 'Cancelled')` with
`cutoff = max(order_date) - lookback_days`).  An empty table has no
maximum (pandas `NaT`), and every comparison with it is false. -/
def recent_orders (lookback : ℤ) (orders : List SalesOrder) : List SalesOrder :=
  match maxOrderDate orders with
  | none => []
  | some m =>
    orders.filter (fun o =>
      decide (m - lookback ≤ o.order_date) && (o.status != "Cancelled"))

/-- Merge of all sales orders with items followed by the
`status != 'Cancelled'` filter (the join pattern of
`calculate_inventory_turnover`, `calculate_eoq` and `prepare_demand_data`). -/
def nsJoin (ds : Dataset) : List (SalesOrder × SalesOrderItem) :=
  (soJoin ds.sales_orders ds.sales_order_items).filter
    (fun r => r.1.status != "Cancelled")

/-- Deleting every cancelled sales order together with its line items
(the transformation quantified over in the cancelled-order claims). -/
def delete_cancelled (ds : Dataset) : Dataset :=
  { ds with
    sales_orders := ds.sales_orders.filter (fun o => o.status != "Cancelled"),
    sales_order_items := ds.sales_order_items.filter (fun it =>
      !(ds.sales_orders.any (fun o => o.so_id == it.so_id && o.status == "Cancelled"))) }

/-!
ABC classification (`InventoryAnalytics.calculate_abc_classification`).
-/

/-- Per-product aggregate of the windowed sales join:
`groupby('product_id').agg(quantity_ordered='sum', unit_price='mean')`
followed by `total_revenue = quantity_ordered * unit_price`. -/
structure AbcEntry where
  product_id : ℕ
  quantity_ordered : ℕ
  unit_price : ℚ
  total_revenue : ℚ

def abc_revenue_rows (rows : List (SalesOrder × SalesOrderItem)) : List AbcEntry :=
  (dedupFO (rows.map (fun r => r.2.product_id))).map (fun pid =>
    let sel := rows.filter (fun r => r.2.product_id == pid)
    let qty := (sel.map (fun r => r.2.quantity_ordered)).sum
    let mp := listMeanQ (sel.map (fun r => r.2.unit_price))
    { product_id := pid, quantity_ordered := qty, unit_price := mp,
      total_revenue := (qty : ℚ) * mp })

/-- Insertion step of the descending sort on `total_revenue`
(`sort_values('total_revenue', ascending=False)`; tie order is whatever
the sort leaves, deterministic here). -/
def insertDescRev (e : AbcEntry) : List AbcEntry → List AbcEntry
  | [] => [e]
  | a :: t =>
    if a.total_revenue < e.total_revenue then e :: a :: t
    else a :: insertDescRev e t

def sortDescRev : List AbcEntry → List AbcEntry
  | [] => []
  | a :: t => insertDescRev a (sortDescRev t)

/-- Threshold banding of a cumulative revenue percentage (`assign_class`). -/
def assign_class (aT bT pct : ℚ) : String :=
  if pct ≤ aT then "A" else if pct ≤ bT then "B" else "C"

/-- Classified per-product row of the sorted revenue table. -/
structure AbcClassEntry where
  product_id : ℕ
  quantity_ordered : ℕ
  total_revenue : ℚ
  cumulative_pct : ℚ
  abc_class : String

/-- Cumulative-sum pass over the sorted rows: running revenue `acc`,
`cumulative_pct = cumsum / total * 100`, class from the thresholds. -/
def abc_cumulate (aT bT total acc : ℚ) : List AbcEntry → List AbcClassEntry
  | [] => []
  | e :: t =>
    { product_id := e.product_id, quantity_ordered := e.quantity_ordered,
      total_revenue := e.total_revenue,
      cumulative_pct := (acc + e.total_revenue) / total * 100,
      abc_class := assign_class aT bT ((acc + e.total_revenue) / total * 100) } ::
      abc_cumulate aT bT total (acc + e.total_revenue) t

/-- Sorted and classified revenue table, before the final merge with
`products` (when the total revenue is zero the source's percentages are
`NaN` and every class is `C`; the claims below only quantify over
positive totals). -/
def abc_classified (lookback : ℤ) (aT bT : ℚ) (ds : Dataset) : List AbcClassEntry :=
  let joined := soJoin (recent_orders lookback ds.sales_orders) ds.sales_order_items
  let sorted := sortDescRev (abc_revenue_rows joined)
  abc_cumulate aT bT ((sorted.map (fun e => e.total_revenue)).sum) 0 sorted

/-- Returned row of `calculate_abc_classification`. -/
structure AbcRow where
  product_id : ℕ
  sku : String
  product_name : String
  quantity_ordered : ℕ
  total_revenue : ℚ
  cumulative_pct : ℚ
  abc_class : String

/-- Full `calculate_abc_classification`: windowed non-cancelled sales,
per-product revenue, descending sort, cumulative classes, inner merge
with `products`. -/
def calculate_abc_classification (lookback : ℤ) (aT bT : ℚ) (ds : Dataset) :
    List AbcRow :=
  (abc_classified lookback aT bT ds).filterMap (fun e =>
    (ds.products.find? (fun p => p.product_id == e.product_id)).map (fun p =>
      { product_id := e.product_id, sku := p.sku, product_name := p.product_name,
        quantity_ordered := e.quantity_ordered, total_revenue := e.total_revenue,
        cumulative_pct := e.cumulative_pct, abc_class := e.abc_class }))

/-!
Inventory turnover (`InventoryAnalytics.calculate_inventory_turnover`).
-/

/-- Row of the intermediate COGS table: non-cancelled sales grouped by
`(warehouse_id, product_id)`, merged with `products` for the unit cost,
`cogs_annual = quantity_ordered * unit_cost`. -/
structure CogsRow where
  warehouse_id : ℕ
  product_id : ℕ
  quantity_ordered : ℕ
  unit_cost : ℚ
  cogs_annual : ℚ

def cogs_table (ds : Dataset) : List CogsRow :=
  (dedupFO ((nsJoin ds).map (fun r => (r.1.warehouse_id, r.2.product_id)))).filterMap
    (fun k =>
      let qty := (((nsJoin ds).filter (fun r =>
        r.1.warehouse_id == k.1 && r.2.product_id == k.2)).map
          (fun r => r.2.quantity_ordered)).sum
      (ds.products.find? (fun p => p.product_id == k.2)).map (fun p =>
        { warehouse_id := k.1, product_id := k.2, quantity_ordered := qty,
          unit_cost := p.unit_cost, cogs_annual := (qty : ℚ) * p.unit_cost }))

/-- Turnover banding (`classify_turnover`). -/
def classify_turnover (r : ℚ) : String :=
  if 12 ≤ r then "Fast Moving"
  else if 4 ≤ r then "Normal"
  else if 1 ≤ r then "Slow Moving"
  else "Dead Stock"

/-- Returned row of `calculate_inventory_turnover`.  The unit cost of a
row comes from the left merge with the COGS table, so `inventory_value`
is `none` (pandas `NaN`) exactly when the `(warehouse, product)` pair has
no non-cancelled sales; `days_of_supply = none` stands for `np.inf`. -/
structure TurnoverRow where
  warehouse_code : String
  sku : String
  product_name : String
  quantity_on_hand : ℕ
  inventory_value : Option ℚ
  cogs_annual : ℚ
  turnover_ratio : ℚ
  days_of_supply : Option ℚ
  turnover_category : String

def calculate_inventory_turnover (warehouse_id : Option ℕ) (ds : Dataset) :
    List TurnoverRow :=
  let inv := if truthyNat warehouse_id then
      ds.inventory.filter (fun r => r.warehouse_id == warehouse_id.getD 0)
    else ds.inventory
  inv.filterMap (fun r =>
    (ds.products.find? (fun p => p.product_id == r.product_id)).bind (fun p =>
      (ds.warehouses.find? (fun w => w.warehouse_id == r.warehouse_id)).map (fun w =>
        let cRow := (cogs_table ds).find? (fun c =>
          c.warehouse_id == r.warehouse_id && c.product_id == r.product_id)
        let invVal : Option ℚ := cRow.map (fun c => (r.quantity_on_hand : ℚ) * c.unit_cost)
        let cogsA : ℚ := match cRow with
          | some c => c.cogs_annual
          | none => 0
        let ratio : ℚ := match invVal with
          | some v => if 0 < v then cogsA / v else 0
          | none => 0
        { warehouse_code := w.warehouse_code, sku := p.sku,
          product_name := p.product_name,
          quantity_on_hand := r.quantity_on_hand,
          inventory_value := invVal, cogs_annual := cogsA,
          turnover_ratio := ratio,
          days_of_supply := if 0 < ratio then some (365 / ratio) else none,
          turnover_category := classify_turnover ratio })))

/-!
Reorder points (`InventoryAnalytics.calculate_reorder_points`).
-/

/-- Per-`(warehouse, product)` daily-demand statistics over the trailing
window: mean, variance and count of the daily quantity sums.
`var_daily_demand` is the square of the source's `std_daily_demand` after
`fillna(0.3 * mean)`; the standard deviation only ever enters the safety
stock squared, so the variance is all downstream formulas need. -/
structure DemandStat where
  warehouse_id : ℕ
  product_id : ℕ
  avg_daily_demand : ℚ
  var_daily_demand : ℚ
  days_with_demand : ℕ

/-- Daily demand: the windowed join grouped by
`(warehouse_id, product_id, order_date)` with quantities summed. -/
def daily_demand (rows : List (SalesOrder × SalesOrderItem)) :
    List ((ℕ × ℕ) × ℤ × ℕ) :=
  (dedupFO (rows.map (fun r =>
    ((r.1.warehouse_id, r.2.product_id), r.1.order_date)))).map (fun k =>
      (k.1, k.2, ((rows.filter (fun r =>
        r.1.warehouse_id == k.1.1 && r.2.product_id == k.1.2 &&
          r.1.order_date == k.2)).map (fun r => r.2.quantity_ordered)).sum))

/-- Statistics of the daily series grouped by `(warehouse_id, product_id)`. -/
def demand_stats_of (daily : List ((ℕ × ℕ) × ℤ × ℕ)) : List DemandStat :=
  (dedupFO (daily.map (fun d => d.1))).map (fun k =>
    let vals := (daily.filter (fun d => d.1 == k)).map (fun d => (d.2.2 : ℚ))
    let m := listMeanQ vals
    let v : ℚ := match sampleVarQ vals with
      | some v => v
      | none => ((3 / 10) * m) ^ 2
    { warehouse_id := k.1, product_id := k.2, avg_daily_demand := m,
      var_daily_demand := v, days_with_demand := vals.length })

def demand_stats (lookback : ℤ) (ds : Dataset) : List DemandStat :=
  demand_stats_of (daily_demand
    (soJoin (recent_orders lookback ds.sales_orders) ds.sales_order_items))

/-- The source's lead-time statistics from delivered purchase orders
(lines 236-249): `actual_delivery_date - order_date` grouped by supplier,
mean and variance (variance is the square of the source's
`std_lead_time`, with `fillna(0.2 * mean)` squared).  The source computes
this table and then never merges it into the reorder result. -/
structure LeadTimeStat where
  supplier_id : ℕ
  avg_lead_time : ℚ
  var_lead_time : ℚ

def supplier_lead_time_stats (ds : Dataset) : List LeadTimeStat :=
  let delivered := ds.purchase_orders.filterMap (fun po =>
    if po.status == "Delivered" then
      po.actual_delivery_date.map (fun a => (po.supplier_id, a - po.order_date))
    else none)
  (dedupFO (delivered.map (fun d => d.1))).map (fun sid =>
    let leads := (delivered.filter (fun d => d.1 == sid)).map (fun d => (d.2 : ℚ))
    let m := listMeanQ leads
    let v : ℚ := match sampleVarQ leads with
      | some v => v
      | none => (m * (1 / 5)) ^ 2
    { supplier_id := sid, avg_lead_time := m, var_lead_time := v })

/-- Returned row of `calculate_reorder_points`. -/
structure ReorderRow where
  warehouse_code : String
  sku : String
  product_name : String
  quantity_on_hand : ℕ
  avg_daily_demand : ℚ
  avg_lead_time : ℕ
  safety_stock : ℤ
  current_rop : ℕ
  calculated_rop : ℤ
  recommendation : String

/-- One reorder row.  The source overwrites `avg_lead_time` with the
product's static `lead_time_days` and `std_lead_time` with `0.2 *
lead_time_days` for every row (lines 258-259), so those are the values in
the safety-stock formula.  `safety_stock = round(z * sqrt(E))` with
`E = LT * sigma_d^2 + d^2 * sigma_LT^2` is embedded as the rounding of
`sqrt(z^2 * E)`, which equals it for `z >= 0` (true of every service
level >= 0.5; the default 0.95 gives z ~ 1.645); `calculated_rop` rounds
`d * LT + z * sqrt(E)` with the unrounded safety stock, as the source
does. -/
def reorder_row (z : ℚ) (st : DemandStat) (inv : InventoryRecord)
    (p : Product) (w : Warehouse) : ReorderRow :=
  let lt := p.lead_time_days
  let es : ℚ := (lt : ℚ) * st.var_daily_demand +
    st.avg_daily_demand ^ 2 * ((lt : ℚ) * (1 / 5)) ^ 2
  let ss := npRoundAddSqrt 0 (z ^ 2 * es)
  let rop := npRoundAddSqrt (st.avg_daily_demand * (lt : ℚ)) (z ^ 2 * es)
  { warehouse_code := w.warehouse_code, sku := p.sku,
    product_name := p.product_name,
    quantity_on_hand := inv.quantity_on_hand,
    avg_daily_demand := st.avg_daily_demand,
    avg_lead_time := lt,
    safety_stock := ss,
    current_rop := inv.reorder_point,
    calculated_rop := rop,
    recommendation :=
      if (inv.reorder_point : ℚ) * (2 / 10) < (rop : ℚ) - (inv.reorder_point : ℚ) then
        "Increase ROP"
      else if (rop : ℚ) - (inv.reorder_point : ℚ) < -((inv.reorder_point : ℚ) * (2 / 10)) then
        "Decrease ROP"
      else "Optimal" }

def calculate_reorder_points (z : ℚ) (lookback : ℤ) (ds : Dataset) :
    List ReorderRow :=
  (demand_stats lookback ds).filterMap (fun st =>
    (ds.inventory.find? (fun r =>
      r.warehouse_id == st.warehouse_id && r.product_id == st.product_id)).bind (fun inv =>
        (ds.products.find? (fun p => p.product_id == st.product_id)).bind (fun p =>
          (ds.warehouses.find? (fun w => w.warehouse_id == st.warehouse_id)).map (fun w =>
            reorder_row z st inv p w))))

/-!
EOQ (`InventoryAnalytics.calculate_eoq`).
-/

/-- Annual demand per product: all non-cancelled sales grouped by
product, quantities summed (lines 313-320; no date window). -/
def annual_demand_table (ds : Dataset) : List (ℕ × ℕ) :=
  (dedupFO ((nsJoin ds).map (fun r => r.2.product_id))).map (fun pid =>
    (pid, (((nsJoin ds).filter (fun r => r.2.product_id == pid)).map
      (fun r => r.2.quantity_ordered)).sum))

/-- EOQ of one product: `round(sqrt(2 * D * S / H))` with
`H = unit_cost * holding_cost_rate`.  The source divides by `H` with no
guard; when `H = 0` the division is a division by zero (and for `H < 0`
the square root of a negative), whose undefined outcome is embedded as
`none`. -/
def eoq_value (ordering_cost holding_rate : ℚ) (d : ℕ) (uc : ℚ) : Option ℤ :=
  if 0 < uc * holding_rate then
    some (npRoundAddSqrt 0 (2 * (d : ℚ) * ordering_cost / (uc * holding_rate)))
  else none

/-- `calculate_eoq`: per product with sales, the annual demand merged
with `products`, and the (possibly undefined) EOQ. -/
def calculate_eoq (ordering_cost holding_rate : ℚ) (ds : Dataset) :
    List (ℕ × Option ℤ) :=
  (annual_demand_table ds).filterMap (fun de =>
    (ds.products.find? (fun p => p.product_id == de.1)).map (fun p =>
      (de.1, eoq_value ordering_cost holding_rate de.2 p.unit_cost)))

/-- Total annual cost at order quantity `q`:
`ordering + holding = D*S/q + H*q/2` (the function the EOQ minimizes). -/
def eoq_total_cost (d s h q : ℚ) : ℚ := d * s / q + h * q / 2

/-!
Demand series (`DemandForecaster.prepare_demand_data`).
-/

/-- `prepare_demand_data`: join, drop cancelled, optional product and
warehouse filters (Python truthiness: `if product_id:`), then group by
`(order_date, product_id)` summing quantities. -/
def prepare_demand_data (product_id warehouse_id : Option ℕ) (ds : Dataset) :
    List ((ℤ × ℕ) × ℕ) :=
  let demand := nsJoin ds
  let demand1 := if truthyNat product_id then
      demand.filter (fun r => r.2.product_id == product_id.getD 0)
    else demand
  let demand2 := if truthyNat warehouse_id then
      demand1.filter (fun r => r.1.warehouse_id == warehouse_id.getD 0)
    else demand1
  (dedupFO (demand2.map (fun r => (r.1.order_date, r.2.product_id)))).map (fun k =>
    (k, ((demand2.filter (fun r =>
      r.1.order_date == k.1 && r.2.product_id == k.2)).map
        (fun r => r.2.quantity_ordered)).sum))

/-!
Carrying costs (`InventoryAnalytics.calculate_carrying_costs`) and the
supplier tier function (`SupplierAnalytics.calculate_supplier_scores`).
-/

/-- numpy rounding of a rational to two decimals (`.round(2)`), half to
even. -/
def round2 (v : ℚ) : ℚ := (npRoundQ (v * 100) : ℚ) / 100

/-- Inventory joined with products, warehouses and (left) categories. -/
structure CarryJoinRow where
  inv : InventoryRecord
  item : Product
  wh : Warehouse
  category_name : Option String

def carrying_inv_rows (ds : Dataset) : List CarryJoinRow :=
  ds.inventory.filterMap (fun r =>
    (ds.products.find? (fun p => p.product_id == r.product_id)).bind (fun p =>
      (ds.warehouses.find? (fun w => w.warehouse_id == r.warehouse_id)).map (fun w =>
        { inv := r, item := p, wh := w,
          category_name := (ds.product_categories.find? (fun c =>
            c.category_id == p.category_id)).map (fun c => c.category_name) })))

/-- Returned row of `calculate_carrying_costs`. -/
structure CarryRow where
  warehouse_code : String
  warehouse_name : String
  category_name : Option String
  product_count : ℕ
  total_units : ℕ
  inventory_value : ℚ
  capital_cost : ℚ
  storage_cost : ℚ
  insurance_cost : ℚ
  obsolescence_cost : ℚ
  handling_cost : ℚ
  total_carrying_cost : ℚ
  monthly_carrying_cost : ℚ

/-- Aggregation by `(warehouse_code, warehouse_name, category_name)` with
the fixed percentage decomposition, before the final rounding of money
columns. -/
def carrying_summary_raw (ds : Dataset) : List CarryRow :=
  let rows := carrying_inv_rows ds
  (dedupFO (rows.map (fun r =>
    (r.wh.warehouse_code, r.wh.warehouse_name, r.category_name)))).map (fun k =>
      let sel := rows.filter (fun r =>
        (r.wh.warehouse_code, r.wh.warehouse_name, r.category_name) == k)
      let v := (sel.map (fun r => (r.inv.quantity_on_hand : ℚ) * r.item.unit_cost)).sum
      { warehouse_code := k.1, warehouse_name := k.2.1, category_name := k.2.2,
        product_count := sel.length,
        total_units := (sel.map (fun r => r.inv.quantity_on_hand)).sum,
        inventory_value := v,
        capital_cost := v * (8 / 100),
        storage_cost := v * (5 / 100),
        insurance_cost := v * (3 / 100),
        obsolescence_cost := v * (2 / 100),
        handling_cost := v * (2 / 100),
        total_carrying_cost := v * (20 / 100),
        monthly_carrying_cost := v * (20 / 100) / 12 })

/-- `calculate_carrying_costs`: the raw summary with every money column
rounded to two decimals (`summary[money_cols].round(2)`). -/
def calculate_carrying_costs (ds : Dataset) : List CarryRow :=
  (carrying_summary_raw ds).map (fun r =>
    { r with
      inventory_value := round2 r.inventory_value,
      capital_cost := round2 r.capital_cost,
      storage_cost := round2 r.storage_cost,
      insurance_cost := round2 r.insurance_cost,
      obsolescence_cost := round2 r.obsolescence_cost,
      handling_cost := round2 r.handling_cost,
      total_carrying_cost := round2 r.total_carrying_cost,
      monthly_carrying_cost := round2 r.monthly_carrying_cost })

/-- Supplier tier from on-time and fill rates (percentages), the
`assign_tier` closure of `calculate_supplier_scores`. -/
def assign_tier (on_time_rate fill_rate : ℚ) : String :=
  if 95 ≤ on_time_rate ∧ 98 ≤ fill_rate then "Platinum"
  else if 90 ≤ on_time_rate ∧ 95 ≤ fill_rate then "Gold"
  else if 80 ≤ on_time_rate ∧ 90 ≤ fill_rate then "Silver"
  else "Bronze"

/-- Rank of a tier in the order Bronze < Silver < Gold < Platinum. -/
def tier_rank (t : String) : ℕ :=
  if t == "Platinum" then 3
  else if t == "Gold" then 2
  else if t == "Silver" then 1
  else 0

/-- Total revenue of the trailing window (the divisor of the cumulative
percentages in `calculate_abc_classification`). -/
def abc_total_revenue (lookback : ℤ) (ds : Dataset) : ℚ :=
  ((sortDescRev (abc_revenue_rows (soJoin (recent_orders lookback ds.sales_orders)
    ds.sales_order_items))).map (fun e => e.total_revenue)).sum

/-!
Concrete snapshots used by counterexamples and witnesses.  Rows are
anonymous constructors in field order:
`Product = ⟨product_id, sku, product_name, category_id, unit_cost,
unit_price, lead_time_days⟩`,
`Warehouse = ⟨warehouse_id, warehouse_code, warehouse_name⟩`,
`InventoryRecord = ⟨warehouse_id, product_id, quantity_on_hand,
quantity_reserved, reorder_point, reorder_quantity⟩`,
`SalesOrder = ⟨so_id, warehouse_id, order_date, status⟩`,
`SalesOrderItem = ⟨so_id, product_id, quantity_ordered, unit_price⟩`,
`PurchaseOrder = ⟨po_id, supplier_id, warehouse_id, order_date,
expected_delivery_date, actual_delivery_date, status⟩`.
-/

/-- A product with unit cost 0 and one non-cancelled sale: the EOQ
holding cost is 0 and the unguarded division by it is reached. -/
def dsZeroCost : Dataset :=
  { products := [⟨1, "SKU1", "P1", 1, 0, 5, 3⟩]
    warehouses := [⟨1, "W1", "WhOne"⟩]
    suppliers := []
    inventory := []
    sales_orders := [⟨1, 1, 10, "Delivered"⟩]
    sales_order_items := [⟨1, 1, 10, 5⟩]
    purchase_orders := []
    purchase_order_items := []
    product_categories := [] }

/-- One inventory row with sales: unit cost 2, 4 on hand, 6 sold at 5. -/
def dsTurnover : Dataset :=
  { products := [⟨1, "SKU1", "P1", 1, 2, 5, 3⟩]
    warehouses := [⟨1, "W1", "WhOne"⟩]
    suppliers := []
    inventory := [⟨1, 1, 4, 0, 5, 10⟩]
    sales_orders := [⟨1, 1, 10, "Delivered"⟩]
    sales_order_items := [⟨1, 1, 6, 5⟩]
    purchase_orders := []
    purchase_order_items := []
    product_categories := [] }

/-- One inventory row worth 10.01: two-decimal rounding of the carrying
cost components is lossy (8% of 10.01 is 0.8008, returned as 0.80). -/
def dsCarry : Dataset :=
  { products := [⟨1, "SKU1", "P1", 1, 1001 / 100, 20, 3⟩]
    warehouses := [⟨1, "W1", "WhOne"⟩]
    suppliers := []
    inventory := [⟨1, 1, 1, 0, 0, 0⟩]
    sales_orders := []
    sales_order_items := []
    purchase_orders := []
    purchase_order_items := []
    product_categories := [⟨1, "Cat"⟩] }

/-- Annual demand 1 at unit cost 190 (H = 47.5): the EOQ rounds the real
minimizer 1.4509... down to 1, but ordering 2 is strictly cheaper. -/
def dsEoqRound : Dataset :=
  { products := [⟨1, "SKU1", "P1", 1, 190, 300, 3⟩]
    warehouses := []
    suppliers := []
    inventory := []
    sales_orders := [⟨1, 1, 5, "Delivered"⟩]
    sales_order_items := [⟨1, 1, 1, 300⟩]
    purchase_orders := []
    purchase_order_items := []
    product_categories := [] }

/-- A supplier with two delivered purchase orders of actual lead time 10
days each, while the product's static `lead_time_days` is 5. -/
def dsLeadTime : Dataset :=
  { products := [⟨1, "SKU1", "P1", 1, 1, 2, 5⟩]
    warehouses := [⟨1, "W1", "WhOne"⟩]
    suppliers := [⟨1, "S1", "SupOne", 9 / 2⟩]
    inventory := [⟨1, 1, 10, 0, 5, 10⟩]
    sales_orders := [⟨1, 1, 100, "Delivered"⟩]
    sales_order_items := [⟨1, 1, 3, 2⟩]
    purchase_orders := [⟨1, 1, 1, 0, 8, some 10, "Delivered"⟩,
      ⟨2, 1, 1, 20, 28, some 30, "Delivered"⟩]
    purchase_order_items := []
    product_categories := [] }

/-- 30 sale days for one product: quantity 1 on days 1..29 and 2 on day
30.  Mean daily demand 31/30, sample variance 1/30, lead time 1 day. -/
def dsRopRound : Dataset :=
  { products := [⟨1, "SKU1", "P1", 1, 1, 2, 1⟩]
    warehouses := [⟨1, "W1", "WhOne"⟩]
    suppliers := []
    inventory := [⟨1, 1, 5, 0, 3, 10⟩]
    sales_orders := (List.range 30).map (fun i => ⟨i + 1, 1, (i : ℤ) + 1, "Delivered"⟩)
    sales_order_items := (List.range 30).map (fun i =>
      ⟨i + 1, 1, if i = 29 then 2 else 1, 2⟩)
    purchase_orders := []
    purchase_order_items := []
    product_categories := [] }

/-- The latest order is cancelled (day 400); the only non-cancelled
order is on day 0, outside the 365-day window anchored at day 400 but
inside the window anchored at day 0. -/
def dsCancelAnchor : Dataset :=
  { products := [⟨1, "SKU1", "P1", 1, 2, 5, 3⟩]
    warehouses := [⟨1, "W1", "WhOne"⟩]
    suppliers := []
    inventory := []
    sales_orders := [⟨1, 1, 400, "Cancelled"⟩, ⟨2, 1, 0, "Delivered"⟩]
    sales_order_items := [⟨2, 1, 5, 2⟩]
    purchase_orders := []
    purchase_order_items := []
    product_categories := [] }

/-- A cancelled order that does not hold the latest date: deleting it is
invariant (witness snapshot for the amended cancelled-order claim). -/
def dsCancelSafe : Dataset :=
  { products := [⟨1, "SKU1", "P1", 1, 2, 5, 3⟩]
    warehouses := [⟨1, "W1", "WhOne"⟩]
    suppliers := []
    inventory := []
    sales_orders := [⟨1, 1, 10, "Delivered"⟩, ⟨2, 1, 5, "Cancelled"⟩]
    sales_order_items := [⟨1, 1, 2, 3⟩, ⟨2, 1, 4, 6⟩]
    purchase_orders := []
    purchase_order_items := []
    product_categories := [] }

/-- A single product carrying all the revenue. -/
def dsSingleRevenue : Dataset :=
  { products := [⟨1, "SKU1", "P1", 1, 2, 5, 3⟩]
    warehouses := []
    suppliers := []
    inventory := []
    sales_orders := [⟨1, 1, 0, "Delivered"⟩]
    sales_order_items := [⟨1, 1, 5, 2⟩]
    purchase_orders := []
    purchase_order_items := []
    product_categories := [] }
/-!
Claim theorems.
-/

theorem ratFloorSqrt_sq_le (x : ℚ) (hx : 0 ≤ x) :
    ((ratFloorSqrt x : ℚ)) ^ 2 ≤ x := by
  unfold ratFloorSqrt
  set p := x.num.toNat with hp
  set q := x.den with hq
  have hq0 : 0 < q := x.pos
  have hnum : ((p : ℚ)) = ((x.num : ℤ) : ℚ) := by
    rw [hp]
    exact_mod_cast congrArg (fun z : ℤ => (z : ℚ))
      (Int.toNat_of_nonneg (Rat.num_nonneg.mpr hx))
  have hxpq : x = (p : ℚ) / (q : ℚ) := by
    rw [hnum, hq]
    exact (Rat.num_div_den x).symm
  set s := Nat.sqrt (p * q) with hs
  have h1 : (s / q) * q ≤ s := Nat.div_mul_le_self s q
  have h2 : s ^ 2 ≤ p * q := Nat.sqrt_le' (p * q)
  have key : ((s / q) * q) ^ 2 ≤ p * q := le_trans (Nat.pow_le_pow_left h1 2) h2
  have key2 : (s / q) ^ 2 * q ≤ p := by
    have hq2 : (s / q) ^ 2 * q * q ≤ p * q := by
      calc (s / q) ^ 2 * q * q = ((s / q) * q) ^ 2 := by ring
        _ ≤ p * q := key
    exact Nat.le_of_mul_le_mul_right hq2 hq0
  rw [hxpq, le_div_iff₀ (by exact_mod_cast hq0)]
  exact_mod_cast key2

theorem ratFloorSqrt_lt_succ_sq (x : ℚ) (hx : 0 ≤ x) :
    x < ((ratFloorSqrt x : ℚ) + 1) ^ 2 := by
  unfold ratFloorSqrt
  set p := x.num.toNat with hp
  set q := x.den with hq
  have hq0 : 0 < q := x.pos
  have hnum : ((p : ℚ)) = ((x.num : ℤ) : ℚ) := by
    rw [hp]
    exact_mod_cast congrArg (fun z : ℤ => (z : ℚ))
      (Int.toNat_of_nonneg (Rat.num_nonneg.mpr hx))
  have hxpq : x = (p : ℚ) / (q : ℚ) := by
    rw [hnum, hq]
    exact (Rat.num_div_den x).symm
  set s := Nat.sqrt (p * q) with hs
  have h2 : p * q < (s + 1) ^ 2 := Nat.lt_succ_sqrt' (p * q)
  have h3 : s + 1 ≤ (s / q + 1) * q := by
    have hdm := Nat.div_add_mod s q
    have hml : s % q < q := Nat.mod_lt s hq0
    have : s < (s / q + 1) * q := by nlinarith [hdm, hml]
    omega
  have key : p * q < ((s / q + 1) * q) ^ 2 :=
    lt_of_lt_of_le h2 (Nat.pow_le_pow_left h3 2)
  have key2 : p < (s / q + 1) ^ 2 * q := by
    have hq2 : p * q < (s / q + 1) ^ 2 * q * q := by
      calc p * q < ((s / q + 1) * q) ^ 2 := key
        _ = (s / q + 1) ^ 2 * q * q := by ring
    exact Nat.lt_of_mul_lt_mul_right hq2
  rw [hxpq, div_lt_iff₀ (by exact_mod_cast hq0)]
  exact_mod_cast key2

theorem fract_ratCast (c : ℚ) : Int.fract ((c : ℝ)) = ((Int.fract c : ℚ) : ℝ) := by
  unfold Int.fract
  rw [Rat.floor_cast]
  push_cast
  ring

theorem ratFloorSqrt_le_sqrt (x : ℚ) (hx : 0 ≤ x) :
    (ratFloorSqrt x : ℝ) ≤ Real.sqrt (x : ℝ) := by
  have hx' : (0 : ℝ) ≤ (x : ℝ) := by exact_mod_cast hx
  rw [Real.le_sqrt (by positivity) hx']
  have := ratFloorSqrt_sq_le x hx
  exact_mod_cast this

theorem sqrt_lt_ratFloorSqrt_succ (x : ℚ) (hx : 0 ≤ x) :
    Real.sqrt (x : ℝ) < (ratFloorSqrt x : ℝ) + 1 := by
  rw [Real.sqrt_lt' (by positivity)]
  have := ratFloorSqrt_lt_succ_sq x hx
  exact_mod_cast this

theorem floorAddSqrt_eq (c x : ℚ) (hx : 0 ≤ x) :
    floorAddSqrt c x = ⌊(c : ℝ) + Real.sqrt (x : ℝ)⌋ := by
  have hx' : (0 : ℝ) ≤ (x : ℝ) := by exact_mod_cast hx
  have hs1 := ratFloorSqrt_le_sqrt x hx
  have hs2 := sqrt_lt_ratFloorSqrt_succ x hx
  have hfr1 : (0 : ℝ) ≤ Int.fract (c : ℝ) := Int.fract_nonneg _
  have hfr2 : Int.fract (c : ℝ) < 1 := Int.fract_lt_one _
  have hsplit : (c : ℝ) = ((⌊c⌋ : ℤ) : ℝ) + Int.fract (c : ℝ) := by
    unfold Int.fract
    rw [Rat.floor_cast]
    ring
  unfold floorAddSqrt
  set m := ratFloorSqrt x with hm
  split_ifs with h
  · symm
    rw [Int.floor_eq_iff]
    have hcond : ((m : ℝ) + 1 - Int.fract (c : ℝ)) ≤ Real.sqrt (x : ℝ) := by
      rw [Real.le_sqrt (by linarith) hx']
      rw [fract_ratCast]
      exact_mod_cast h
    constructor
    · push_cast
      linarith
    · push_cast
      linarith
  · symm
    rw [Int.floor_eq_iff]
    have hcond : Real.sqrt (x : ℝ) < ((m : ℝ) + 1 - Int.fract (c : ℝ)) := by
      rw [Real.sqrt_lt' (by linarith)]
      rw [fract_ratCast]
      push_neg at h
      exact_mod_cast h
    constructor
    · push_cast
      linarith
    · push_cast
      linarith


theorem npRoundQ_spec (y : ℚ) :
    |y - (npRoundQ y : ℚ)| ≤ 1 / 2 ∧
      (|y - (npRoundQ y : ℚ)| = 1 / 2 → npRoundQ y % 2 = 0) := by
  unfold npRoundQ
  have hf1 : (0 : ℚ) ≤ Int.fract y := Int.fract_nonneg _
  have hf2 : Int.fract y < 1 := Int.fract_lt_one _
  have hfr : Int.fract y = y - ⌊y⌋ := rfl
  split_ifs with h hpar
  · constructor
    · rw [abs_le]
      constructor <;> linarith [hfr ▸ h]
    · intro _
      exact hpar
  · constructor
    · rw [abs_le]
      push_cast
      constructor <;> linarith [hfr ▸ h]
    · intro _
      omega
  · have hne : Int.fract y ≠ 1 / 2 := h
    rcases lt_or_gt_of_ne hne with hlt | hgt
    · have hfl : ⌊y + 1 / 2⌋ = ⌊y⌋ := by
        rw [Int.floor_eq_iff]
        constructor
        · linarith [hfr, hf1]
        · push_cast
          linarith [hfr, hlt]
      rw [hfl]
      constructor
      · rw [abs_le]
        constructor <;> linarith [hfr, hf1, hlt]
      · intro habs
        exfalso
        rw [abs_eq (by norm_num)] at habs
        rcases habs with h1 | h1
        · exact hne (by rw [hfr]; linarith)
        · nlinarith [hfr, hf1]
    · have hfl : ⌊y + 1 / 2⌋ = ⌊y⌋ + 1 := by
        rw [Int.floor_eq_iff]
        push_cast
        constructor
        · linarith [hfr, hgt]
        · linarith [hfr, hf2]
      rw [hfl]
      constructor
      · rw [abs_le]
        push_cast
        constructor <;> linarith [hfr, hf2, hgt]
      · intro habs
        exfalso
        rw [abs_eq (by norm_num)] at habs
        push_cast at habs
        rcases habs with h1 | h1
        · nlinarith [hfr, hf2]
        · exact hne (by rw [hfr]; linarith)

theorem isNpRound_of_rat (y : ℚ) (n : ℤ)
    (h1 : |y - (n : ℚ)| ≤ 1 / 2) (h2 : |y - (n : ℚ)| = 1 / 2 → n % 2 = 0) :
    IsNpRound (y : ℝ) n := by
  have hcast : |(y : ℝ) - (n : ℝ)| = ((|y - (n : ℚ)| : ℚ) : ℝ) := by
    rw [Rat.cast_abs]
    push_cast
    ring_nf
  have h12 : ((1 : ℝ) / 2) = (((1 : ℚ) / 2 : ℚ) : ℝ) := by norm_num
  constructor
  · rw [hcast, h12]
    exact Rat.cast_le.mpr h1
  · intro habs
    apply h2
    rw [hcast, h12] at habs
    exact_mod_cast habs

theorem npRoundQ_isNpRound (y : ℚ) : IsNpRound (y : ℝ) (npRoundQ y) :=
  isNpRound_of_rat y (npRoundQ y) (npRoundQ_spec y).1 (npRoundQ_spec y).2

theorem npRoundAddSqrt_isNpRound (p x : ℚ) (hx : 0 ≤ x) :
    IsNpRound ((p : ℝ) + Real.sqrt (x : ℝ)) (npRoundAddSqrt p x) := by
  have hx' : (0 : ℝ) ≤ (x : ℝ) := by exact_mod_cast hx
  have hsq : (0 : ℝ) ≤ Real.sqrt (x : ℝ) := Real.sqrt_nonneg _
  have hfl : floorAddSqrt p x = ⌊(p : ℝ) + Real.sqrt (x : ℝ)⌋ := floorAddSqrt_eq p x hx
  set y : ℝ := (p : ℝ) + Real.sqrt (x : ℝ) with hy
  unfold npRoundAddSqrt
  split_ifs with h hpar
  · -- exact tie: √x = n₀ + 1/2 - p, so y = n₀ + 1/2; round to the even of n₀, n₀+1
    obtain ⟨hr0, hrx⟩ := h
    have hsqrt : Real.sqrt (x : ℝ) = (((floorAddSqrt p x : ℚ) + 1 / 2 - p : ℚ) : ℝ) := by
      rw [show ((x : ℝ)) = ((((floorAddSqrt p x : ℚ) + 1 / 2 - p : ℚ) : ℝ)) ^ 2 by
        rw [← Rat.cast_pow]
        exact_mod_cast congrArg (fun q : ℚ => (q : ℝ)) hrx]
      exact Real.sqrt_sq (by exact_mod_cast hr0)
    have hyv : y = ((floorAddSqrt p x : ℤ) : ℝ) + 1 / 2 := by
      rw [hy, hsqrt]
      push_cast
      ring
    constructor
    · rw [hyv]
      rw [show ((floorAddSqrt p x : ℤ) : ℝ) + 1 / 2 - ((floorAddSqrt p x : ℤ) : ℝ) = 1 / 2 by ring]
      rw [abs_of_nonneg (by norm_num)]
    · intro _
      exact hpar
  · obtain ⟨hr0, hrx⟩ := h
    have hsqrt : Real.sqrt (x : ℝ) = (((floorAddSqrt p x : ℚ) + 1 / 2 - p : ℚ) : ℝ) := by
      rw [show ((x : ℝ)) = ((((floorAddSqrt p x : ℚ) + 1 / 2 - p : ℚ) : ℝ)) ^ 2 by
        rw [← Rat.cast_pow]
        exact_mod_cast congrArg (fun q : ℚ => (q : ℝ)) hrx]
      exact Real.sqrt_sq (by exact_mod_cast hr0)
    have hyv : y = ((floorAddSqrt p x : ℤ) : ℝ) + 1 / 2 := by
      rw [hy, hsqrt]
      push_cast
      ring
    constructor
    · rw [hyv]
      rw [show ((floorAddSqrt p x : ℤ) : ℝ) + 1 / 2 - ((floorAddSqrt p x + 1 : ℤ) : ℝ) = -(1 / 2) by
        push_cast
        ring]
      rw [abs_neg, abs_of_nonneg (by norm_num)]
    · intro _
      omega
  · -- no tie: plain floor of y + 1/2
    have hfl2 : floorAddSqrt (p + 1 / 2) x = ⌊y + 1 / 2⌋ := by
      rw [floorAddSqrt_eq (p + 1 / 2) x hx, hy]
      congr 1
      push_cast
      ring
    rw [hfl2]
    have h1 : ((⌊y + 1 / 2⌋ : ℤ) : ℝ) ≤ y + 1 / 2 := Int.floor_le _
    have h2 : y + 1 / 2 < ((⌊y + 1 / 2⌋ : ℤ) : ℝ) + 1 := Int.lt_floor_add_one _
    constructor
    · rw [abs_le]
      constructor <;> linarith
    · intro habs
      exfalso
      rw [abs_eq (by norm_num)] at habs
      rcases habs with h3 | h3
      · -- y = n + 1/2 with n = ⌊y + 1/2⌋: impossible since then ⌊y + 1/2⌋ = n + 1
        have : ((⌊y + 1 / 2⌋ : ℤ) : ℝ) + 1 ≤ y + 1 / 2 := by linarith
        linarith
      · -- y = n - 1/2: then √x = (n₀ + 1/2 - p) exactly, contradicting the split
        have hyn : y = ((⌊y + 1 / 2⌋ : ℤ) : ℝ) - 1 / 2 := by linarith
        have hfly : (⌊y⌋ : ℤ) = ⌊y + 1 / 2⌋ - 1 := by
          have : ⌊y⌋ = ⌊y + 1 / 2⌋ - 1 ↔ _ := Int.floor_eq_iff
          rw [this]
          constructor
          · push_cast
            linarith
          · push_cast
            linarith
        have hsqrt : Real.sqrt (x : ℝ) =
            (((floorAddSqrt p x : ℚ) + 1 / 2 - p : ℚ) : ℝ) := by
          have : Real.sqrt (x : ℝ) = y - (p : ℝ) := by rw [hy]; ring
          rw [this, hfl, hfly]
          push_cast
          linarith
        apply h
        have hr0 : (0 : ℚ) ≤ (floorAddSqrt p x : ℚ) + 1 / 2 - p := by
          have := hsqrt ▸ hsq
          exact_mod_cast this
        refine ⟨hr0, ?_⟩
        have : (x : ℝ) = ((((floorAddSqrt p x : ℚ) + 1 / 2 - p : ℚ) : ℝ)) ^ 2 := by
          rw [← hsqrt]
          exact (Real.sq_sqrt hx').symm
        rw [← Rat.cast_pow] at this
        exact_mod_cast this

theorem isNpRound_unique {y : ℝ} {n m : ℤ}
    (hn : IsNpRound y n) (hm : IsNpRound y m) : n = m := by
  obtain ⟨hn1, hn2⟩ := hn
  obtain ⟨hm1, hm2⟩ := hm
  by_contra hne
  rcases lt_or_gt_of_ne hne with hlt | hlt
  · have hcast : ((n : ℝ)) + 1 ≤ (m : ℝ) := by exact_mod_cast hlt
    rw [abs_le] at hn1 hm1
    have he1 : y - (n : ℝ) = 1 / 2 := by linarith [hn1.1, hn1.2, hm1.1, hm1.2]
    have he2 : y - (m : ℝ) = -(1 / 2) := by linarith [hn1.1, hn1.2, hm1.1, hm1.2]
    have hp1 : n % 2 = 0 := hn2 (by rw [he1]; norm_num)
    have hp2 : m % 2 = 0 := hm2 (by rw [he2]; rw [abs_neg, abs_of_nonneg] <;> norm_num)
    have : (m : ℝ) = (n : ℝ) + 1 := by linarith
    have : m = n + 1 := by exact_mod_cast this
    omega
  · have hcast : ((m : ℝ)) + 1 ≤ (n : ℝ) := by exact_mod_cast hlt
    rw [abs_le] at hn1 hm1
    have he1 : y - (m : ℝ) = 1 / 2 := by linarith [hn1.1, hn1.2, hm1.1, hm1.2]
    have he2 : y - (n : ℝ) = -(1 / 2) := by linarith [hn1.1, hn1.2, hm1.1, hm1.2]
    have hp1 : m % 2 = 0 := hm2 (by rw [he1]; norm_num)
    have hp2 : n % 2 = 0 := hn2 (by rw [he2]; rw [abs_neg, abs_of_nonneg] <;> norm_num)
    have : (n : ℝ) = (m : ℝ) + 1 := by linarith
    have : n = m + 1 := by exact_mod_cast this
    omega

theorem isNpRound_mono {y y' : ℝ} {n n' : ℤ} (hyy : y ≤ y')
    (hn : IsNpRound y n) (hn' : IsNpRound y' n') : n ≤ n' := by
  obtain ⟨hn1, hn2⟩ := hn
  obtain ⟨hm1, hm2⟩ := hn'
  by_contra hlt
  push_neg at hlt
  have hcast : ((n' : ℝ)) + 1 ≤ (n : ℝ) := by exact_mod_cast hlt
  rw [abs_le] at hn1 hm1
  have he1 : y - (n : ℝ) = -(1 / 2) := by linarith [hn1.1, hn1.2, hm1.1, hm1.2]
  have he2 : y' - (n' : ℝ) = 1 / 2 := by linarith [hn1.1, hn1.2, hm1.1, hm1.2]
  have hp1 : n % 2 = 0 := hn2 (by rw [he1]; rw [abs_neg, abs_of_nonneg] <;> norm_num)
  have hp2 : n' % 2 = 0 := hm2 (by rw [he2]; norm_num)
  have hyeq : y = y' := by linarith [hn1.1, hn1.2, hm1.1, hm1.2]
  have : (n : ℝ) = (n' : ℝ) + 1 := by
    rw [hyeq] at he1
    linarith
  have : n = n' + 1 := by exact_mod_cast this
  omega

theorem npRoundAddSqrt_eq_of (p x : ℚ) (n : ℤ) (hx : 0 ≤ x)
    (hl : (n : ℚ) - 1 / 2 - p < 0 ∨ ((n : ℚ) - 1 / 2 - p) ^ 2 < x)
    (hu1 : p < (n : ℚ) + 1 / 2) (hu2 : x < ((n : ℚ) + 1 / 2 - p) ^ 2) :
    npRoundAddSqrt p x = n := by
  have hx' : (0 : ℝ) ≤ (x : ℝ) := by exact_mod_cast hx
  have hsq : (0 : ℝ) ≤ Real.sqrt (x : ℝ) := Real.sqrt_nonneg _
  set y : ℝ := (p : ℝ) + Real.sqrt (x : ℝ) with hy
  have hup : y < (n : ℝ) + 1 / 2 := by
    have hpos : (0 : ℝ) < ((n : ℚ) + 1 / 2 - p : ℚ) := by exact_mod_cast sub_pos.mpr hu1
    have : Real.sqrt (x : ℝ) < (((n : ℚ) + 1 / 2 - p : ℚ) : ℝ) := by
      rw [Real.sqrt_lt' hpos]
      rw [← Rat.cast_pow]
      exact_mod_cast hu2
    rw [hy]
    push_cast at this ⊢
    linarith
  have hlo : (n : ℝ) - 1 / 2 < y := by
    rcases hl with hneg | hsqlt
    · have : ((n : ℚ) - 1 / 2 - p : ℚ) < 0 := hneg
      have hc : (((n : ℚ) - 1 / 2 - p : ℚ) : ℝ) < 0 := by exact_mod_cast this
      rw [hy]
      push_cast at hc ⊢
      linarith
    · rcases le_or_lt 0 ((n : ℚ) - 1 / 2 - p) with ha | ha
      · have ha' : (0 : ℝ) ≤ (((n : ℚ) - 1 / 2 - p : ℚ) : ℝ) := by exact_mod_cast ha
        have : (((n : ℚ) - 1 / 2 - p : ℚ) : ℝ) < Real.sqrt (x : ℝ) := by
          rw [show (((n : ℚ) - 1 / 2 - p : ℚ) : ℝ) =
              Real.sqrt ((((n : ℚ) - 1 / 2 - p : ℚ) : ℝ) ^ 2) by
            exact (Real.sqrt_sq ha').symm]
          apply Real.sqrt_lt_sqrt (by positivity)
          rw [← Rat.cast_pow]
          exact_mod_cast hsqlt
        rw [hy]
        push_cast at this ⊢
        linarith
      · have hc : (((n : ℚ) - 1 / 2 - p : ℚ) : ℝ) < 0 := by exact_mod_cast ha
        rw [hy]
        push_cast at hc ⊢
        linarith
  have hin : IsNpRound y n := by
    constructor
    · rw [abs_le]
      constructor <;> linarith
    · intro habs
      exfalso
      rw [abs_eq (by norm_num)] at habs
      rcases habs with h1 | h1 <;> linarith
  exact isNpRound_unique (npRoundAddSqrt_isNpRound p x hx) hin

/-- C6: supplier tier assignment is monotonic in both inputs — a pair of
rates dominating another componentwise never gets a lower tier in the
order Bronze < Silver < Gold < Platinum. -/
theorem C6_tier_monotonic (a b a' b' : ℚ) (ha : a' ≤ a) (hb : b' ≤ b) :
    tier_rank (assign_tier a' b') ≤ tier_rank (assign_tier a b) := by
  have hrp : tier_rank "Platinum" = 3 := by decide
  have hrg : tier_rank "Gold" = 2 := by decide
  have hrs : tier_rank "Silver" = 1 := by decide
  have hrb : tier_rank "Bronze" = 0 := by decide
  by_cases hp' : 95 ≤ a' ∧ 98 ≤ b'
  · have hp : 95 ≤ a ∧ 98 ≤ b := ⟨le_trans hp'.1 ha, le_trans hp'.2 hb⟩
    simp only [assign_tier, if_pos hp', if_pos hp]
    exact le_refl _
  · by_cases hg' : 90 ≤ a' ∧ 95 ≤ b'
    · have hg : 90 ≤ a ∧ 95 ≤ b := ⟨le_trans hg'.1 ha, le_trans hg'.2 hb⟩
      by_cases hp : 95 ≤ a ∧ 98 ≤ b
      · simp only [assign_tier, if_neg hp', if_pos hg', if_pos hp, hrp, hrg]
        omega
      · simp only [assign_tier, if_neg hp', if_pos hg', if_neg hp, if_pos hg]
        exact le_refl _
    · by_cases hs' : 80 ≤ a' ∧ 90 ≤ b'
      · have hs : 80 ≤ a ∧ 90 ≤ b := ⟨le_trans hs'.1 ha, le_trans hs'.2 hb⟩
        by_cases hp : 95 ≤ a ∧ 98 ≤ b
        · simp only [assign_tier, if_neg hp', if_neg hg', if_pos hs', if_pos hp,
            hrp, hrs]
          omega
        · by_cases hg : 90 ≤ a ∧ 95 ≤ b
          · simp only [assign_tier, if_neg hp', if_neg hg', if_pos hs', if_neg hp,
              if_pos hg, hrg, hrs]
            omega
          · simp only [assign_tier, if_neg hp', if_neg hg', if_pos hs', if_neg hp,
              if_neg hg, if_pos hs]
            exact le_refl _
      · simp only [assign_tier, if_neg hp', if_neg hg', if_neg hs', hrb]
        exact Nat.zero_le _

/-- C6 witness: the dominating pair (96, 99) gets Platinum, dominated
(85, 92) gets Silver, and the theorem applies. -/
theorem C6_tier_monotonic_witness :
    tier_rank (assign_tier 85 92) ≤ tier_rank (assign_tier 96 99) :=
  C6_tier_monotonic 96 99 85 92 (by norm_num) (by norm_num)

/-- C9: a filter identifier of `0` is falsy in Python, so passing `0`
behaves exactly like passing no filter, in `prepare_demand_data` (both
arguments) and in `calculate_inventory_turnover`. -/
theorem C9_zero_filter_noop (ds : Dataset) (pid wid : Option ℕ) :
    prepare_demand_data (some 0) wid ds = prepare_demand_data none wid ds ∧
    prepare_demand_data pid (some 0) ds = prepare_demand_data pid none ds ∧
    calculate_inventory_turnover (some 0) ds = calculate_inventory_turnover none ds :=
  ⟨rfl, rfl, rfl⟩

theorem cogs_table_nonneg (ds : Dataset)
    (hc : ∀ p ∈ ds.products, 0 ≤ p.unit_cost) :
    ∀ c ∈ cogs_table ds, 0 ≤ c.cogs_annual := by
  intro c hcmem
  unfold cogs_table at hcmem
  rw [List.mem_filterMap] at hcmem
  obtain ⟨k, _, hsome⟩ := hcmem
  rw [Option.map_eq_some'] at hsome
  obtain ⟨p, hfind, hceq⟩ := hsome
  have hp : p ∈ ds.products := List.mem_of_find?_eq_some hfind
  have hcost := hc p hp
  rw [← hceq]
  positivity

theorem turnover_mem_spec (wid : Option ℕ) (ds : Dataset) (r : TurnoverRow)
    (hr : r ∈ calculate_inventory_turnover wid ds) :
    (r.inventory_value = none → r.cogs_annual = 0 ∧ r.turnover_ratio = 0) ∧
    (∀ v, r.inventory_value = some v →
      r.turnover_ratio = if 0 < v then r.cogs_annual / v else 0) ∧
    (r.inventory_value ≠ none → ∃ c ∈ cogs_table ds, r.cogs_annual = c.cogs_annual) ∧
    r.days_of_supply = (if 0 < r.turnover_ratio then some (365 / r.turnover_ratio) else none) := by
  unfold calculate_inventory_turnover at hr
  rw [List.mem_filterMap] at hr
  obtain ⟨rec, _, hsome⟩ := hr
  rw [Option.bind_eq_some] at hsome
  obtain ⟨p, _, hsome⟩ := hsome
  rw [Option.map_eq_some'] at hsome
  obtain ⟨w, _, hreq⟩ := hsome
  subst hreq
  rcases hfind : (cogs_table ds).find? (fun c =>
      c.warehouse_id == rec.warehouse_id && c.product_id == rec.product_id) with _ | c
  · refine ⟨?_, ?_, ?_, ?_⟩
    · intro _
      simp [hfind]
    · intro v hv
      simp [hfind] at hv
    · intro hne
      simp [hfind] at hne
    · simp [hfind]
  · refine ⟨?_, ?_, ?_, ?_⟩
    · intro hnone
      simp [hfind] at hnone
    · intro v hv
      simp only [hfind, Option.map_some'] at hv ⊢
      rw [Option.some_inj] at hv
      simp [← hv]
    · intro _
      refine ⟨c, List.mem_of_find?_eq_some hfind, ?_⟩
      simp [hfind]
    · simp [hfind]

/-- C5: in every returned turnover row (over data whose unit costs are
nonnegative) the ratio is nonnegative; a zero inventory value forces
ratio 0 (guarded division); days of supply is exactly `365 / ratio` for
positive ratio and infinite (`none`, numpy `inf`) for ratio 0; the
computation is total, so no division error is raised. -/
theorem C5_turnover_row_properties (wid : Option ℕ) (ds : Dataset)
    (hc : ∀ p ∈ ds.products, 0 ≤ p.unit_cost) :
    ∀ r ∈ calculate_inventory_turnover wid ds,
      0 ≤ r.turnover_ratio ∧
      (r.inventory_value = some 0 → r.turnover_ratio = 0) ∧
      (0 < r.turnover_ratio → r.days_of_supply = some (365 / r.turnover_ratio)) ∧
      (r.turnover_ratio = 0 → r.days_of_supply = none) := by
  intro r hr
  obtain ⟨hnone, hsome, hcogs, hdos⟩ := turnover_mem_spec wid ds r hr
  have hca : 0 ≤ r.cogs_annual := by
    rcases hiv : r.inventory_value with _ | v
    · exact (hnone hiv).1.ge
    · obtain ⟨c, hcmem, hceq⟩ := hcogs (by rw [hiv]; exact Option.some_ne_none v)
      rw [hceq]
      exact cogs_table_nonneg ds hc c hcmem
  have hratio : 0 ≤ r.turnover_ratio := by
    rcases hiv : r.inventory_value with _ | v
    · exact ((hnone hiv).2).ge
    · rw [hsome v hiv]
      split_ifs with hv
      · positivity
      · exact le_refl 0
  refine ⟨hratio, ?_, ?_, ?_⟩
  · intro h0
    rw [hsome 0 h0]
    norm_num
  · intro hpos
    rw [hdos, if_pos hpos]
  · intro h0
    rw [hdos, if_neg (by rw [h0]; exact lt_irrefl 0)]

/-- C5 witness: the single turnover row of `dsTurnover` (unit cost 2,
4 on hand, 6 sold) and the theorem applied to it. -/
theorem C5_turnover_row_properties_witness :
    (calculate_inventory_turnover none dsTurnover).length = 1 ∧
    ∀ r ∈ calculate_inventory_turnover none dsTurnover,
      0 ≤ r.turnover_ratio ∧
      (r.inventory_value = some 0 → r.turnover_ratio = 0) ∧
      (0 < r.turnover_ratio → r.days_of_supply = some (365 / r.turnover_ratio)) ∧
      (r.turnover_ratio = 0 → r.days_of_supply = none) := by
  have hpr : dsTurnover.products = [⟨1, "SKU1", "P1", 1, 2, 5, 3⟩] := rfl
  have hwh : dsTurnover.warehouses = [⟨1, "W1", "WhOne"⟩] := rfl
  have hin : dsTurnover.inventory = [⟨1, 1, 4, 0, 5, 10⟩] := rfl
  have hso : dsTurnover.sales_orders = [⟨1, 1, 10, "Delivered"⟩] := rfl
  have hsi : dsTurnover.sales_order_items = [⟨1, 1, 6, 5⟩] := rfl
  have hns : nsJoin dsTurnover =
      [(⟨1, 1, 10, "Delivered"⟩, ⟨1, 1, 6, 5⟩)] := by
    norm_num [nsJoin, soJoin, hso, hsi]
    decide
  have hcogs : cogs_table dsTurnover = [⟨1, 1, 6, 2, 12⟩] := by
    norm_num [cogs_table, hns, dedupFO, dedupSeen, List.contains, List.elem, hpr, List.filterMap_cons,
      List.find?_cons_of_pos, List.find?_cons_of_neg]
  constructor
  · norm_num [calculate_inventory_turnover, hin, hpr, hwh, hcogs, truthyNat,
      List.filterMap_cons, List.find?_cons_of_pos, List.find?_cons_of_neg]
  · exact C5_turnover_row_properties none dsTurnover (by
      intro p hp
      simp only [dsTurnover] at hp
      rw [List.mem_singleton] at hp
      subst hp
      norm_num)

/-- C2 counterexample: the claim that `calculate_eoq` enforces a
positive holding cost before dividing is false — a product with unit
cost 0 (snapshot `dsZeroCost`) reaches the unguarded division by zero,
embedded as an undefined (`none`) EOQ entry. -/
theorem C2_eoq_guard_counterexample :
    ¬ (∀ (ds : Dataset) (s rate : ℚ) (e : ℕ × Option ℤ),
        e ∈ calculate_eoq s rate ds → (e.2).isSome = true) := by
  intro h
  have hpr : dsZeroCost.products = [⟨1, "SKU1", "P1", 1, 0, 5, 3⟩] := rfl
  have hso : dsZeroCost.sales_orders = [⟨1, 1, 10, "Delivered"⟩] := rfl
  have hsi : dsZeroCost.sales_order_items = [⟨1, 1, 10, 5⟩] := rfl
  have hns : nsJoin dsZeroCost = [(⟨1, 1, 10, "Delivered"⟩, ⟨1, 1, 10, 5⟩)] := by
    norm_num [nsJoin, soJoin, hso, hsi]
    decide
  have had : annual_demand_table dsZeroCost = [(1, 10)] := by
    norm_num [annual_demand_table, hns, dedupFO, dedupSeen, List.contains, List.elem, dedupSeen]
  have heoq : calculate_eoq 50 (1 / 4) dsZeroCost = [(1, none)] := by
    norm_num [calculate_eoq, had, hpr, eoq_value, List.filterMap_cons,
      List.find?_cons_of_pos, List.find?_cons_of_neg]
  have := h dsZeroCost 50 (1 / 4) (1, none) (by rw [heoq]; exact List.mem_singleton.mpr rfl)
  simp at this

/-- C2 amended: the turnover-ratio and days-of-supply divisions are
guarded (zero or missing inventory value forces ratio 0, and 365 is
divided only by a positive ratio), but `calculate_eoq` performs no
holding-cost check: its division is defined exactly when
`unit_cost * holding_cost_rate > 0`, and the division-by-zero case is
reachable whenever that product is 0. -/
theorem C2_division_guards :
    (∀ (wid : Option ℕ) (ds : Dataset) (r : TurnoverRow),
      r ∈ calculate_inventory_turnover wid ds →
        (r.inventory_value = some 0 → r.turnover_ratio = 0) ∧
        (r.turnover_ratio = 0 → r.days_of_supply = none) ∧
        (0 < r.turnover_ratio → r.days_of_supply = some (365 / r.turnover_ratio))) ∧
    (∀ (s rate : ℚ) (d : ℕ) (uc : ℚ),
      eoq_value s rate d uc = none ↔ uc * rate ≤ 0) := by
  constructor
  · intro wid ds r hr
    obtain ⟨_, hsome, _, hdos⟩ := turnover_mem_spec wid ds r hr
    refine ⟨?_, ?_, ?_⟩
    · intro h0
      rw [hsome 0 h0]
      norm_num
    · intro h0
      rw [hdos, if_neg (by rw [h0]; exact lt_irrefl 0)]
    · intro hpos
      rw [hdos, if_pos hpos]
  · intro s rate d uc
    unfold eoq_value
    split_ifs with h
    · simp only [iff_false_intro (Option.some_ne_none _), false_iff, not_le]
      exact h
    · simp only [true_iff]
      exact le_of_not_lt h

/-- C2 witness: unit cost 4 at rate 1/4 has a defined EOQ (the iff's
right side is false), and unit cost 0 an undefined one. -/
theorem C2_division_guards_witness :
    (eoq_value 50 (1 / 4) 10 4 = none ↔ (4 : ℚ) * (1 / 4) ≤ 0) ∧
    (eoq_value 50 (1 / 4) 10 0 = none ↔ (0 : ℚ) * (1 / 4) ≤ 0) :=
  ⟨C2_division_guards.2 50 (1 / 4) 10 4, C2_division_guards.2 50 (1 / 4) 10 0⟩

theorem npRoundQ_eq_of (y : ℚ) (n : ℤ)
    (h1 : (n : ℚ) - 1 / 2 < y) (h2 : y < (n : ℚ) + 1 / 2) : npRoundQ y = n := by
  have hs := (npRoundQ_spec y).1
  rw [abs_le] at hs
  have hlt1 : npRoundQ y - n < 1 := by
    have : ((npRoundQ y - n : ℤ) : ℚ) < 1 := by
      push_cast
      linarith [hs.1, hs.2]
    exact_mod_cast this
  have hlt2 : n - npRoundQ y < 1 := by
    have : ((n - npRoundQ y : ℤ) : ℚ) < 1 := by
      push_cast
      linarith [hs.1, hs.2]
    exact_mod_cast this
  omega

/-- C7 counterexample: the returned (two-decimal rounded) carrying-cost
rows do not satisfy the exact percentage equalities.  For an inventory
value of 10.01 the capital cost 8% is 0.8008, returned rounded as 0.80. -/
theorem C7_carrying_rounding_counterexample :
    ¬ (∀ (ds : Dataset), ∀ r ∈ calculate_carrying_costs ds,
        r.capital_cost = r.inventory_value * (8 / 100) ∧
        r.storage_cost = r.inventory_value * (5 / 100) ∧
        r.insurance_cost = r.inventory_value * (3 / 100) ∧
        r.obsolescence_cost = r.inventory_value * (2 / 100) ∧
        r.handling_cost = r.inventory_value * (2 / 100) ∧
        r.capital_cost + r.storage_cost + r.insurance_cost + r.obsolescence_cost +
          r.handling_cost = r.total_carrying_cost ∧
        r.total_carrying_cost = r.inventory_value * (20 / 100) ∧
        r.monthly_carrying_cost = r.total_carrying_cost / 12) := by
  intro h
  have hpr : dsCarry.products = [⟨1, "SKU1", "P1", 1, 1001 / 100, 20, 3⟩] := rfl
  have hwh : dsCarry.warehouses = [⟨1, "W1", "WhOne"⟩] := rfl
  have hin : dsCarry.inventory = [⟨1, 1, 1, 0, 0, 0⟩] := rfl
  have hcat : dsCarry.product_categories = [⟨1, "Cat"⟩] := rfl
  have hrows : carrying_inv_rows dsCarry =
      [⟨⟨1, 1, 1, 0, 0, 0⟩, ⟨1, "SKU1", "P1", 1, 1001 / 100, 20, 3⟩,
        ⟨1, "W1", "WhOne"⟩, some "Cat"⟩] := by
    norm_num [carrying_inv_rows, hpr, hwh, hin, hcat, List.filterMap_cons,
      List.find?_cons_of_pos, List.find?_cons_of_neg]
  have hraw : carrying_summary_raw dsCarry =
      [⟨"W1", "WhOne", some "Cat", 1, 1, 1001 / 100, 1001 / 1250, 1001 / 2000,
        3003 / 10000, 1001 / 5000, 1001 / 5000, 1001 / 500, 1001 / 6000⟩] := by
    norm_num [carrying_summary_raw, carrying_inv_rows, hpr, hwh, hin, hcat,
      dedupFO, dedupSeen, List.contains, List.elem, List.filterMap_cons,
      List.find?_cons_of_pos, List.find?_cons_of_neg]
  have hv : round2 (1001 / 100) = 1001 / 100 := by
    rw [round2, show ((1001 : ℚ) / 100) * 100 = ((1001 : ℤ) : ℚ) by norm_num,
      npRoundQ_eq_of ((1001 : ℤ) : ℚ) 1001 (by norm_num) (by norm_num)]
    norm_num
  have hcap : round2 (1001 / 1250) = 4 / 5 := by
    rw [round2, show ((1001 : ℚ) / 1250) * 100 = 2002 / 25 by norm_num,
      npRoundQ_eq_of (2002 / 25) 80 (by norm_num) (by norm_num)]
    norm_num
  have hcc : ∀ r ∈ calculate_carrying_costs dsCarry,
      r.inventory_value = 1001 / 100 ∧ r.capital_cost = 4 / 5 := by
    intro r hr
    rw [calculate_carrying_costs, hraw] at hr
    rw [List.mem_map] at hr
    obtain ⟨s, hs, hr⟩ := hr
    rw [List.mem_singleton] at hs
    subst hs
    rw [← hr]
    exact ⟨hv, hcap⟩
  have hmem : (calculate_carrying_costs dsCarry).length = 1 := by
    rw [calculate_carrying_costs, hraw]
    rfl
  rcases hl : calculate_carrying_costs dsCarry with _ | ⟨r, t⟩
  · rw [hl] at hmem
    simp at hmem
  · have hr : r ∈ calculate_carrying_costs dsCarry := by
      rw [hl]
      exact List.mem_cons_self r t
    obtain ⟨hval, hcapv⟩ := hcc r hr
    have := (h dsCarry r hr).1
    rw [hval, hcapv] at this
    norm_num at this

/-- C7 amended: the five percentage components, their sum, the 20% total
and the monthly twelfth hold exactly on the aggregated values before
rounding; the returned rows are those values rounded to two decimals
(half to even), so the returned equalities hold only up to that
rounding. -/
theorem C7_carrying_decomposition (ds : Dataset) :
    (∀ r ∈ carrying_summary_raw ds,
      r.capital_cost = r.inventory_value * (8 / 100) ∧
      r.storage_cost = r.inventory_value * (5 / 100) ∧
      r.insurance_cost = r.inventory_value * (3 / 100) ∧
      r.obsolescence_cost = r.inventory_value * (2 / 100) ∧
      r.handling_cost = r.inventory_value * (2 / 100) ∧
      r.capital_cost + r.storage_cost + r.insurance_cost + r.obsolescence_cost +
        r.handling_cost = r.total_carrying_cost ∧
      r.total_carrying_cost = r.inventory_value * (20 / 100) ∧
      r.monthly_carrying_cost = r.total_carrying_cost / 12) ∧
    (∀ r ∈ calculate_carrying_costs ds, ∃ v : ℚ,
      r.inventory_value = round2 v ∧
      r.capital_cost = round2 (v * (8 / 100)) ∧
      r.storage_cost = round2 (v * (5 / 100)) ∧
      r.insurance_cost = round2 (v * (3 / 100)) ∧
      r.obsolescence_cost = round2 (v * (2 / 100)) ∧
      r.handling_cost = round2 (v * (2 / 100)) ∧
      r.total_carrying_cost = round2 (v * (20 / 100)) ∧
      r.monthly_carrying_cost = round2 (v * (20 / 100) / 12)) := by
  constructor
  · intro r hr
    unfold carrying_summary_raw at hr
    rw [List.mem_map] at hr
    obtain ⟨k, _, hr⟩ := hr
    subst hr
    refine ⟨rfl, rfl, rfl, rfl, rfl, by ring, rfl, rfl⟩
  · intro r hr
    unfold calculate_carrying_costs at hr
    rw [List.mem_map] at hr
    obtain ⟨s, hs, hr⟩ := hr
    unfold carrying_summary_raw at hs
    rw [List.mem_map] at hs
    obtain ⟨k, _, hk⟩ := hs
    subst hr
    subst hk
    exact ⟨_, rfl, rfl, rfl, rfl, rfl, rfl, rfl, rfl⟩

/-- C7 witness: the single aggregated row of `dsCarry` satisfies the
exact pre-rounding equalities, by the theorem. -/
theorem C7_carrying_decomposition_witness :
    (carrying_summary_raw dsCarry).length = 1 ∧
    ∀ r ∈ carrying_summary_raw dsCarry,
      r.capital_cost = r.inventory_value * (8 / 100) ∧
      r.storage_cost = r.inventory_value * (5 / 100) ∧
      r.insurance_cost = r.inventory_value * (3 / 100) ∧
      r.obsolescence_cost = r.inventory_value * (2 / 100) ∧
      r.handling_cost = r.inventory_value * (2 / 100) ∧
      r.capital_cost + r.storage_cost + r.insurance_cost + r.obsolescence_cost +
        r.handling_cost = r.total_carrying_cost ∧
      r.total_carrying_cost = r.inventory_value * (20 / 100) ∧
      r.monthly_carrying_cost = r.total_carrying_cost / 12 := by
  constructor
  · have hpr : dsCarry.products = [⟨1, "SKU1", "P1", 1, 1001 / 100, 20, 3⟩] := rfl
    have hwh : dsCarry.warehouses = [⟨1, "W1", "WhOne"⟩] := rfl
    have hin : dsCarry.inventory = [⟨1, 1, 1, 0, 0, 0⟩] := rfl
    have hcat : dsCarry.product_categories = [⟨1, "Cat"⟩] := rfl
    have hrows : carrying_inv_rows dsCarry =
        [⟨⟨1, 1, 1, 0, 0, 0⟩, ⟨1, "SKU1", "P1", 1, 1001 / 100, 20, 3⟩,
          ⟨1, "W1", "WhOne"⟩, some "Cat"⟩] := by
      norm_num [carrying_inv_rows, hpr, hwh, hin, hcat, List.filterMap_cons,
        List.find?_cons_of_pos, List.find?_cons_of_neg]
    norm_num [carrying_summary_raw, carrying_inv_rows, hpr, hwh, hin, hcat,
      dedupFO, dedupSeen, List.contains, List.elem, List.filterMap_cons,
      List.find?_cons_of_pos, List.find?_cons_of_neg]
  · exact (C7_carrying_decomposition dsCarry).1

/-- C3 amended: the rounded EOQ is always within half a unit of the real
minimizer `√(2DS/H)`, so `cost(eoq) ≤ cost(eoq - 1)` always holds (for
`eoq ≥ 2`), and `cost(eoq) ≤ cost(eoq + 1)` holds exactly on the side
where rounding did not overshoot, i.e. whenever `2DS/H ≤ eoq·(eoq+1)`;
rounding can violate the right-hand local minimality when `√(2DS/H)`
falls in the gap `(√(eoq·(eoq+1)), eoq + 1/2]`. -/
theorem C3_eoq_near_local_min (s rate : ℚ) (d : ℕ) (uc : ℚ) (q : ℤ)
    (hs : 0 < s) (hd : 0 < d) (hH : 0 < uc * rate)
    (heq : eoq_value s rate d uc = some q) :
    (2 ≤ q → eoq_total_cost (d : ℚ) s (uc * rate) (q : ℚ) ≤
        eoq_total_cost (d : ℚ) s (uc * rate) ((q : ℚ) - 1)) ∧
    (2 * (d : ℚ) * s / (uc * rate) ≤ (q : ℚ) * ((q : ℚ) + 1) →
      eoq_total_cost (d : ℚ) s (uc * rate) (q : ℚ) ≤
        eoq_total_cost (d : ℚ) s (uc * rate) ((q : ℚ) + 1)) := by
  set H : ℚ := uc * rate with hHdef
  set x : ℚ := 2 * (d : ℚ) * s / H with hxdef
  have hdq : (0 : ℚ) < (d : ℚ) := by exact_mod_cast hd
  have hxpos : 0 < x := by
    rw [hxdef]
    positivity
  have hq : q = npRoundAddSqrt 0 x := by
    unfold eoq_value at heq
    rw [if_pos hH] at heq
    exact (Option.some_inj.mp heq).symm
  have hround := npRoundAddSqrt_isNpRound 0 x (le_of_lt hxpos)
  rw [← hq] at hround
  have habs := hround.1
  rw [abs_le] at habs
  have hsq : (0 : ℝ) ≤ Real.sqrt (x : ℝ) := Real.sqrt_nonneg _
  have hlow : ((q : ℝ)) - 1 / 2 ≤ Real.sqrt (x : ℝ) := by
    have := habs.2
    push_cast at this ⊢
    linarith
  have hhigh : Real.sqrt (x : ℝ) ≤ ((q : ℝ)) + 1 / 2 := by
    have := habs.1
    push_cast at this ⊢
    linarith
  have hq0 : 0 ≤ q := by
    have : ((q : ℝ)) ≥ -(1 / 2) := by linarith
    by_contra hneg
    push_neg at hneg
    have hq1 : q ≤ -1 := by omega
    have : ((q : ℝ)) ≤ -1 := by exact_mod_cast hq1
    linarith
  have hxH : x * H = 2 * (d : ℚ) * s := by
    rw [hxdef]
    field_simp
  constructor
  · intro hq2
    have hQ2 : (2 : ℚ) ≤ (q : ℚ) := by exact_mod_cast hq2
    -- x ≥ (q - 1/2)^2 > q(q-1)
    have hsqb : (((q : ℚ) - 1 / 2 : ℚ) : ℝ) ^ 2 ≤ (x : ℝ) := by
      have h0 : (0 : ℝ) ≤ ((q : ℝ)) - 1 / 2 := by
        have : (2 : ℝ) ≤ (q : ℝ) := by exact_mod_cast hq2
        linarith
      calc (((q : ℚ) - 1 / 2 : ℚ) : ℝ) ^ 2 = ((q : ℝ) - 1 / 2) ^ 2 := by
            push_cast
            ring
        _ ≤ Real.sqrt (x : ℝ) ^ 2 := by
            apply pow_le_pow_left h0 hlow
        _ = (x : ℝ) := Real.sq_sqrt (by exact_mod_cast le_of_lt hxpos)
    have hxq : ((q : ℚ) - 1 / 2) ^ 2 ≤ x := by exact_mod_cast hsqb
    have hgt : (q : ℚ) * ((q : ℚ) - 1) < x := by nlinarith [hxq]
    have h2ds : H * ((q : ℚ) * ((q : ℚ) - 1)) < 2 * (d : ℚ) * s := by
      calc H * ((q : ℚ) * ((q : ℚ) - 1)) < H * x := by
            apply mul_lt_mul_of_pos_left hgt hH
        _ = 2 * (d : ℚ) * s := by rw [mul_comm H x]; exact hxH
    have hQpos : (0 : ℚ) < (q : ℚ) := by linarith
    have hQ1pos : (0 : ℚ) < (q : ℚ) - 1 := by linarith
    have hdiff : eoq_total_cost (d : ℚ) s H ((q : ℚ) - 1) - eoq_total_cost (d : ℚ) s H (q : ℚ) =
        ((d : ℚ) * s) / (((q : ℚ) - 1) * (q : ℚ)) - H / 2 := by
      unfold eoq_total_cost
      field_simp
      ring
    have hge : H / 2 ≤ ((d : ℚ) * s) / (((q : ℚ) - 1) * (q : ℚ)) := by
      rw [div_le_div_iff (by norm_num) (by positivity)]
      nlinarith [h2ds]
    linarith [hdiff, hge]
  · intro hle
    have hq1 : 1 ≤ q := by
      by_contra hq1
      push_neg at hq1
      have : q = 0 := by omega
      rw [this] at hle
      simp at hle
      rw [hxdef] at hle
      nlinarith [hle, hxpos]
    have hQ1 : (1 : ℚ) ≤ (q : ℚ) := by exact_mod_cast hq1
    have h2ds : 2 * (d : ℚ) * s ≤ H * ((q : ℚ) * ((q : ℚ) + 1)) := by
      calc 2 * (d : ℚ) * s = H * x := by rw [mul_comm H x]; exact hxH.symm
        _ ≤ H * ((q : ℚ) * ((q : ℚ) + 1)) := by
            apply mul_le_mul_of_nonneg_left hle (le_of_lt hH)
    have hQpos : (0 : ℚ) < (q : ℚ) := by linarith
    have hQ1pos : (0 : ℚ) < (q : ℚ) + 1 := by linarith
    have hdiff : eoq_total_cost (d : ℚ) s H ((q : ℚ) + 1) - eoq_total_cost (d : ℚ) s H (q : ℚ) =
        H / 2 - ((d : ℚ) * s) / ((q : ℚ) * ((q : ℚ) + 1)) := by
      unfold eoq_total_cost
      field_simp
      ring
    have hge : ((d : ℚ) * s) / ((q : ℚ) * ((q : ℚ) + 1)) ≤ H / 2 := by
      rw [div_le_div_iff (by positivity) (by norm_num)]
      nlinarith [h2ds]
    linarith [hdiff, hge]

/-- C3 counterexample: with annual demand 1, ordering cost 50 and unit
cost 190 (holding cost 47.5), the EOQ pipeline returns
`round(√(200/95)) = round(1.4509...) = 1`, but ordering 2 units costs
72.5 against 73.75 at 1 unit — the returned quantity is not a local
minimum of the total cost. -/
theorem C3_eoq_local_min_counterexample :
    ¬ (∀ (ds : Dataset) (s rate : ℚ) (p : Product) (d : ℕ) (q : ℤ),
        p ∈ ds.products → (p.product_id, d) ∈ annual_demand_table ds →
        (p.product_id, some q) ∈ calculate_eoq s rate ds →
        0 < d → 0 < s → 0 < p.unit_cost * rate →
        ((2 ≤ q → eoq_total_cost (d : ℚ) s (p.unit_cost * rate) (q : ℚ) ≤
            eoq_total_cost (d : ℚ) s (p.unit_cost * rate) ((q : ℚ) - 1)) ∧
          eoq_total_cost (d : ℚ) s (p.unit_cost * rate) (q : ℚ) ≤
            eoq_total_cost (d : ℚ) s (p.unit_cost * rate) ((q : ℚ) + 1))) := by
  intro h
  have hpr : dsEoqRound.products = [⟨1, "SKU1", "P1", 1, 190, 300, 3⟩] := rfl
  have hso : dsEoqRound.sales_orders = [⟨1, 1, 5, "Delivered"⟩] := rfl
  have hsi : dsEoqRound.sales_order_items = [⟨1, 1, 1, 300⟩] := rfl
  have hns : nsJoin dsEoqRound = [(⟨1, 1, 5, "Delivered"⟩, ⟨1, 1, 1, 300⟩)] := by
    norm_num [nsJoin, soJoin, hso, hsi]
    decide
  have had : annual_demand_table dsEoqRound = [(1, 1)] := by
    norm_num [annual_demand_table, hns, dedupFO, dedupSeen, List.contains, List.elem, dedupSeen]
  have hval : eoq_value 50 (1 / 4) 1 190 = some 1 := by
    unfold eoq_value
    rw [if_pos (by norm_num)]
    rw [show (2 * ((1 : ℕ) : ℚ) * 50 / (190 * (1 / 4))) = 40 / 19 by norm_num]
    rw [npRoundAddSqrt_eq_of 0 (40 / 19) 1 (by norm_num)
      (Or.inr (by norm_num)) (by norm_num) (by norm_num)]
  have heoq : calculate_eoq 50 (1 / 4) dsEoqRound = [(1, some 1)] := by
    norm_num [calculate_eoq, had, hpr, List.filterMap_cons,
      List.find?_cons_of_pos, List.find?_cons_of_neg, hval]
  have hmem1 : (⟨1, "SKU1", "P1", 1, 190, 300, 3⟩ : Product) ∈ dsEoqRound.products := by
    rw [hpr]
    exact List.mem_singleton.mpr rfl
  have hmem2 : ((1 : ℕ), (1 : ℕ)) ∈ annual_demand_table dsEoqRound := by
    rw [had]
    exact List.mem_singleton.mpr rfl
  have hmem3 : ((1 : ℕ), some (1 : ℤ)) ∈ calculate_eoq 50 (1 / 4) dsEoqRound := by
    rw [heoq]
    exact List.mem_singleton.mpr rfl
  have := (h dsEoqRound 50 (1 / 4) ⟨1, "SKU1", "P1", 1, 190, 300, 3⟩ 1 1
    hmem1 hmem2 hmem3 (by norm_num) (by norm_num) (by norm_num)).2
  rw [eoq_total_cost, eoq_total_cost] at this
  norm_num at this

/-- C3 witness: the spec's own scenario D = 1200, S = 50, H = 5 gives
EOQ 155, and there both local-minimality inequalities hold by the
theorem (24000 ≤ 155·156). -/
theorem C3_eoq_near_local_min_witness :
    eoq_value 50 (1 / 4) 1200 20 = some 155 ∧
    ((2 ≤ (155 : ℤ) → eoq_total_cost ((1200 : ℕ) : ℚ) 50 (20 * (1 / 4)) ((155 : ℤ) : ℚ) ≤
        eoq_total_cost ((1200 : ℕ) : ℚ) 50 (20 * (1 / 4)) (((155 : ℤ) : ℚ) - 1)) ∧
      (2 * ((1200 : ℕ) : ℚ) * 50 / (20 * (1 / 4)) ≤ ((155 : ℤ) : ℚ) * (((155 : ℤ) : ℚ) + 1) →
        eoq_total_cost ((1200 : ℕ) : ℚ) 50 (20 * (1 / 4)) ((155 : ℤ) : ℚ) ≤
          eoq_total_cost ((1200 : ℕ) : ℚ) 50 (20 * (1 / 4)) (((155 : ℤ) : ℚ) + 1))) := by
  have hval : eoq_value 50 (1 / 4) 1200 20 = some 155 := by
    unfold eoq_value
    rw [if_pos (by norm_num)]
    rw [show (2 * ((1200 : ℕ) : ℚ) * 50 / (20 * (1 / 4))) = 24000 by norm_num]
    rw [npRoundAddSqrt_eq_of 0 24000 155 (by norm_num)
      (Or.inr (by norm_num)) (by norm_num) (by norm_num)]
  exact ⟨hval, C3_eoq_near_local_min 50 (1 / 4) 1200 20 155
    (by norm_num) (by norm_num) (by norm_num) hval⟩

theorem listMeanQ_nonneg (l : List ℚ) (h : ∀ x ∈ l, 0 ≤ x) : 0 ≤ listMeanQ l := by
  unfold listMeanQ
  apply div_nonneg (List.sum_nonneg h)
  positivity

theorem sampleVarQ_nonneg (l : List ℚ) (v : ℚ) (hv : sampleVarQ l = some v) : 0 ≤ v := by
  unfold sampleVarQ at hv
  split_ifs at hv with hlen
  rw [Option.some_inj] at hv
  rw [← hv]
  apply div_nonneg
  · apply List.sum_nonneg
    intro x hx
    rw [List.mem_map] at hx
    obtain ⟨a, _, ha⟩ := hx
    rw [← ha]
    positivity
  · push_neg at hlen
    have : (2 : ℚ) ≤ (l.length : ℚ) := by exact_mod_cast hlen
    linarith

theorem demand_stats_nonneg (lookback : ℤ) (ds : Dataset) :
    ∀ st ∈ demand_stats lookback ds,
      0 ≤ st.avg_daily_demand ∧ 0 ≤ st.var_daily_demand := by
  intro st hst
  unfold demand_stats demand_stats_of at hst
  rw [List.mem_map] at hst
  obtain ⟨k, _, hsteq⟩ := hst
  subst hsteq
  simp only
  constructor
  · apply listMeanQ_nonneg
    intro x hx
    rw [List.mem_map] at hx
    obtain ⟨a, _, ha⟩ := hx
    rw [← ha]
    positivity
  · rcases hv : sampleVarQ ((List.filter _ _).map _) with _ | v
    · simp only [hv]
      positivity
    · simp only [hv]
      exact sampleVarQ_nonneg _ v hv

/-- C4 amended: every returned reorder row has a nonnegative safety
stock, and its rounded reorder point `calculated_rop` is at least the
rounding of `avg_daily_demand * avg_lead_time` and at least
`avg_daily_demand * avg_lead_time - 1/2`: the integer rounding of
`d·LT + SS` can fall below the exact product `d·LT` by strictly less
than half a unit (the hypothesis `0 ≤ z` holds for every service level
at or above 0.5, including the default 0.95). -/
theorem C4_safety_rop_bounds (z : ℚ) (lookback : ℤ) (ds : Dataset) (hz : 0 ≤ z) :
    ∀ r ∈ calculate_reorder_points z lookback ds,
      0 ≤ r.safety_stock ∧
      npRoundQ (r.avg_daily_demand * (r.avg_lead_time : ℚ)) ≤ r.calculated_rop ∧
      r.avg_daily_demand * (r.avg_lead_time : ℚ) - 1 / 2 ≤ (r.calculated_rop : ℚ) := by
  intro r hr
  unfold calculate_reorder_points at hr
  rw [List.mem_filterMap] at hr
  obtain ⟨st, hst, hsome⟩ := hr
  rw [Option.bind_eq_some] at hsome
  obtain ⟨inv, _, hsome⟩ := hsome
  rw [Option.bind_eq_some] at hsome
  obtain ⟨p, _, hsome⟩ := hsome
  rw [Option.map_eq_some'] at hsome
  obtain ⟨w, _, hreq⟩ := hsome
  subst hreq
  obtain ⟨havg, hvar⟩ := demand_stats_nonneg lookback ds st hst
  unfold reorder_row
  simp only
  set lt : ℕ := p.lead_time_days with hlt
  set es : ℚ := (lt : ℚ) * st.var_daily_demand +
    st.avg_daily_demand ^ 2 * ((lt : ℚ) * (1 / 5)) ^ 2 with hes
  have hx : (0 : ℚ) ≤ z ^ 2 * es := by
    have : 0 ≤ es := by
      rw [hes]
      positivity
    positivity
  have hx' : (0 : ℝ) ≤ ((z ^ 2 * es : ℚ) : ℝ) := by exact_mod_cast hx
  have hsq : (0 : ℝ) ≤ Real.sqrt ((z ^ 2 * es : ℚ) : ℝ) := Real.sqrt_nonneg _
  set P : ℚ := st.avg_daily_demand * (lt : ℚ) with hP
  have hss := npRoundAddSqrt_isNpRound 0 (z ^ 2 * es) hx
  have hrop := npRoundAddSqrt_isNpRound P (z ^ 2 * es) hx
  refine ⟨?_, ?_, ?_⟩
  · have h1 := hss.1
    rw [abs_le] at h1
    have : (-1 : ℝ) < (npRoundAddSqrt 0 (z ^ 2 * es) : ℝ) := by
      have := h1.2
      push_cast at this ⊢
      linarith
    have h2 : (-1 : ℤ) < npRoundAddSqrt 0 (z ^ 2 * es) := by exact_mod_cast this
    omega
  · have hPround := npRoundQ_isNpRound P
    apply isNpRound_mono _ hPround hrop
    linarith [hsq]
  · have h1 := hrop.1
    rw [abs_le] at h1
    have hb : ((P : ℝ)) - 1 / 2 ≤ ((npRoundAddSqrt P (z ^ 2 * es) : ℤ) : ℝ) := by
      linarith [h1.1]
    have h3 : ((P - 1 / 2 : ℚ) : ℝ) ≤ (((npRoundAddSqrt P (z ^ 2 * es) : ℤ) : ℚ) : ℝ) := by
      push_cast at hb ⊢
      linarith
    exact_mod_cast h3

set_option maxRecDepth 8000 in
set_option maxHeartbeats 3200000 in
/-- C4 counterexample: with the default service level (z = 1.64485...,
bracketed here by [1.6448, 1.6449]) and snapshot `dsRopRound` (mean
daily demand 31/30 over 30 days, variance 1/30, lead time 1), the raw
reorder point is 31/30 + 0.4536 = 1.4869..., which rounds to 1 — strictly
below `avg_daily_demand * avg_lead_time = 31/30`. -/
theorem C4_rop_counterexample :
    ¬ (∀ z : ℚ, 16448 / 10000 ≤ z → z ≤ 16449 / 10000 →
        ∀ r ∈ calculate_reorder_points z 90 dsRopRound,
          r.avg_daily_demand * (r.avg_lead_time : ℚ) ≤ (r.calculated_rop : ℚ)) := by
  intro h
  have hjoin : soJoin (recent_orders 90 dsRopRound.sales_orders)
      dsRopRound.sales_order_items = [(⟨1, 1, 1, "Delivered"⟩, ⟨1, 1, 1, 2⟩), (⟨2, 1, 2, "Delivered"⟩, ⟨2, 1, 1, 2⟩), (⟨3, 1, 3, "Delivered"⟩, ⟨3, 1, 1, 2⟩), (⟨4, 1, 4, "Delivered"⟩, ⟨4, 1, 1, 2⟩), (⟨5, 1, 5, "Delivered"⟩, ⟨5, 1, 1, 2⟩), (⟨6, 1, 6, "Delivered"⟩, ⟨6, 1, 1, 2⟩), (⟨7, 1, 7, "Delivered"⟩, ⟨7, 1, 1, 2⟩), (⟨8, 1, 8, "Delivered"⟩, ⟨8, 1, 1, 2⟩), (⟨9, 1, 9, "Delivered"⟩, ⟨9, 1, 1, 2⟩), (⟨10, 1, 10, "Delivered"⟩, ⟨10, 1, 1, 2⟩), (⟨11, 1, 11, "Delivered"⟩, ⟨11, 1, 1, 2⟩), (⟨12, 1, 12, "Delivered"⟩, ⟨12, 1, 1, 2⟩), (⟨13, 1, 13, "Delivered"⟩, ⟨13, 1, 1, 2⟩), (⟨14, 1, 14, "Delivered"⟩, ⟨14, 1, 1, 2⟩), (⟨15, 1, 15, "Delivered"⟩, ⟨15, 1, 1, 2⟩), (⟨16, 1, 16, "Delivered"⟩, ⟨16, 1, 1, 2⟩), (⟨17, 1, 17, "Delivered"⟩, ⟨17, 1, 1, 2⟩), (⟨18, 1, 18, "Delivered"⟩, ⟨18, 1, 1, 2⟩), (⟨19, 1, 19, "Delivered"⟩, ⟨19, 1, 1, 2⟩), (⟨20, 1, 20, "Delivered"⟩, ⟨20, 1, 1, 2⟩), (⟨21, 1, 21, "Delivered"⟩, ⟨21, 1, 1, 2⟩), (⟨22, 1, 22, "Delivered"⟩, ⟨22, 1, 1, 2⟩), (⟨23, 1, 23, "Delivered"⟩, ⟨23, 1, 1, 2⟩), (⟨24, 1, 24, "Delivered"⟩, ⟨24, 1, 1, 2⟩), (⟨25, 1, 25, "Delivered"⟩, ⟨25, 1, 1, 2⟩), (⟨26, 1, 26, "Delivered"⟩, ⟨26, 1, 1, 2⟩), (⟨27, 1, 27, "Delivered"⟩, ⟨27, 1, 1, 2⟩), (⟨28, 1, 28, "Delivered"⟩, ⟨28, 1, 1, 2⟩), (⟨29, 1, 29, "Delivered"⟩, ⟨29, 1, 1, 2⟩), (⟨30, 1, 30, "Delivered"⟩, ⟨30, 1, 2, 2⟩)] := by rfl
  have hdaily : daily_demand [(⟨1, 1, 1, "Delivered"⟩, ⟨1, 1, 1, 2⟩), (⟨2, 1, 2, "Delivered"⟩, ⟨2, 1, 1, 2⟩), (⟨3, 1, 3, "Delivered"⟩, ⟨3, 1, 1, 2⟩), (⟨4, 1, 4, "Delivered"⟩, ⟨4, 1, 1, 2⟩), (⟨5, 1, 5, "Delivered"⟩, ⟨5, 1, 1, 2⟩), (⟨6, 1, 6, "Delivered"⟩, ⟨6, 1, 1, 2⟩), (⟨7, 1, 7, "Delivered"⟩, ⟨7, 1, 1, 2⟩), (⟨8, 1, 8, "Delivered"⟩, ⟨8, 1, 1, 2⟩), (⟨9, 1, 9, "Delivered"⟩, ⟨9, 1, 1, 2⟩), (⟨10, 1, 10, "Delivered"⟩, ⟨10, 1, 1, 2⟩), (⟨11, 1, 11, "Delivered"⟩, ⟨11, 1, 1, 2⟩), (⟨12, 1, 12, "Delivered"⟩, ⟨12, 1, 1, 2⟩), (⟨13, 1, 13, "Delivered"⟩, ⟨13, 1, 1, 2⟩), (⟨14, 1, 14, "Delivered"⟩, ⟨14, 1, 1, 2⟩), (⟨15, 1, 15, "Delivered"⟩, ⟨15, 1, 1, 2⟩), (⟨16, 1, 16, "Delivered"⟩, ⟨16, 1, 1, 2⟩), (⟨17, 1, 17, "Delivered"⟩, ⟨17, 1, 1, 2⟩), (⟨18, 1, 18, "Delivered"⟩, ⟨18, 1, 1, 2⟩), (⟨19, 1, 19, "Delivered"⟩, ⟨19, 1, 1, 2⟩), (⟨20, 1, 20, "Delivered"⟩, ⟨20, 1, 1, 2⟩), (⟨21, 1, 21, "Delivered"⟩, ⟨21, 1, 1, 2⟩), (⟨22, 1, 22, "Delivered"⟩, ⟨22, 1, 1, 2⟩), (⟨23, 1, 23, "Delivered"⟩, ⟨23, 1, 1, 2⟩), (⟨24, 1, 24, "Delivered"⟩, ⟨24, 1, 1, 2⟩), (⟨25, 1, 25, "Delivered"⟩, ⟨25, 1, 1, 2⟩), (⟨26, 1, 26, "Delivered"⟩, ⟨26, 1, 1, 2⟩), (⟨27, 1, 27, "Delivered"⟩, ⟨27, 1, 1, 2⟩), (⟨28, 1, 28, "Delivered"⟩, ⟨28, 1, 1, 2⟩), (⟨29, 1, 29, "Delivered"⟩, ⟨29, 1, 1, 2⟩), (⟨30, 1, 30, "Delivered"⟩, ⟨30, 1, 2, 2⟩)] = [((1, 1), 1, 1), ((1, 1), 2, 1), ((1, 1), 3, 1), ((1, 1), 4, 1), ((1, 1), 5, 1), ((1, 1), 6, 1), ((1, 1), 7, 1), ((1, 1), 8, 1), ((1, 1), 9, 1), ((1, 1), 10, 1), ((1, 1), 11, 1), ((1, 1), 12, 1), ((1, 1), 13, 1), ((1, 1), 14, 1), ((1, 1), 15, 1), ((1, 1), 16, 1), ((1, 1), 17, 1), ((1, 1), 18, 1), ((1, 1), 19, 1), ((1, 1), 20, 1), ((1, 1), 21, 1), ((1, 1), 22, 1), ((1, 1), 23, 1), ((1, 1), 24, 1), ((1, 1), 25, 1), ((1, 1), 26, 1), ((1, 1), 27, 1), ((1, 1), 28, 1), ((1, 1), 29, 1), ((1, 1), 30, 2)] := by rfl
  have hkeys : dedupFO (([((1, 1), 1, 1), ((1, 1), 2, 1), ((1, 1), 3, 1), ((1, 1), 4, 1), ((1, 1), 5, 1), ((1, 1), 6, 1), ((1, 1), 7, 1), ((1, 1), 8, 1), ((1, 1), 9, 1), ((1, 1), 10, 1), ((1, 1), 11, 1), ((1, 1), 12, 1), ((1, 1), 13, 1), ((1, 1), 14, 1), ((1, 1), 15, 1), ((1, 1), 16, 1), ((1, 1), 17, 1), ((1, 1), 18, 1), ((1, 1), 19, 1), ((1, 1), 20, 1), ((1, 1), 21, 1), ((1, 1), 22, 1), ((1, 1), 23, 1), ((1, 1), 24, 1), ((1, 1), 25, 1), ((1, 1), 26, 1), ((1, 1), 27, 1), ((1, 1), 28, 1), ((1, 1), 29, 1), ((1, 1), 30, 2)] :
      List ((ℕ × ℕ) × ℤ × ℕ)).map (fun d => d.1)) = [(1, 1)] := by rfl
  have hvals : (([((1, 1), 1, 1), ((1, 1), 2, 1), ((1, 1), 3, 1), ((1, 1), 4, 1), ((1, 1), 5, 1), ((1, 1), 6, 1), ((1, 1), 7, 1), ((1, 1), 8, 1), ((1, 1), 9, 1), ((1, 1), 10, 1), ((1, 1), 11, 1), ((1, 1), 12, 1), ((1, 1), 13, 1), ((1, 1), 14, 1), ((1, 1), 15, 1), ((1, 1), 16, 1), ((1, 1), 17, 1), ((1, 1), 18, 1), ((1, 1), 19, 1), ((1, 1), 20, 1), ((1, 1), 21, 1), ((1, 1), 22, 1), ((1, 1), 23, 1), ((1, 1), 24, 1), ((1, 1), 25, 1), ((1, 1), 26, 1), ((1, 1), 27, 1), ((1, 1), 28, 1), ((1, 1), 29, 1), ((1, 1), 30, 2)] :
      List ((ℕ × ℕ) × ℤ × ℕ)).filter (fun d => d.1 == (1, 1))).map
        (fun d => (d.2.2 : ℚ)) = [((1 : ℕ) : ℚ), ((1 : ℕ) : ℚ), ((1 : ℕ) : ℚ), ((1 : ℕ) : ℚ), ((1 : ℕ) : ℚ), ((1 : ℕ) : ℚ), ((1 : ℕ) : ℚ), ((1 : ℕ) : ℚ), ((1 : ℕ) : ℚ), ((1 : ℕ) : ℚ), ((1 : ℕ) : ℚ), ((1 : ℕ) : ℚ), ((1 : ℕ) : ℚ), ((1 : ℕ) : ℚ), ((1 : ℕ) : ℚ), ((1 : ℕ) : ℚ), ((1 : ℕ) : ℚ), ((1 : ℕ) : ℚ), ((1 : ℕ) : ℚ), ((1 : ℕ) : ℚ), ((1 : ℕ) : ℚ), ((1 : ℕ) : ℚ), ((1 : ℕ) : ℚ), ((1 : ℕ) : ℚ), ((1 : ℕ) : ℚ), ((1 : ℕ) : ℚ), ((1 : ℕ) : ℚ), ((1 : ℕ) : ℚ), ((1 : ℕ) : ℚ), ((2 : ℕ) : ℚ)] := by rfl
  have hmean : listMeanQ [((1 : ℕ) : ℚ), ((1 : ℕ) : ℚ), ((1 : ℕ) : ℚ), ((1 : ℕ) : ℚ), ((1 : ℕ) : ℚ), ((1 : ℕ) : ℚ), ((1 : ℕ) : ℚ), ((1 : ℕ) : ℚ), ((1 : ℕ) : ℚ), ((1 : ℕ) : ℚ), ((1 : ℕ) : ℚ), ((1 : ℕ) : ℚ), ((1 : ℕ) : ℚ), ((1 : ℕ) : ℚ), ((1 : ℕ) : ℚ), ((1 : ℕ) : ℚ), ((1 : ℕ) : ℚ), ((1 : ℕ) : ℚ), ((1 : ℕ) : ℚ), ((1 : ℕ) : ℚ), ((1 : ℕ) : ℚ), ((1 : ℕ) : ℚ), ((1 : ℕ) : ℚ), ((1 : ℕ) : ℚ), ((1 : ℕ) : ℚ), ((1 : ℕ) : ℚ), ((1 : ℕ) : ℚ), ((1 : ℕ) : ℚ), ((1 : ℕ) : ℚ), ((2 : ℕ) : ℚ)] = 31 / 30 := by
    norm_num [listMeanQ]
  have hvar : sampleVarQ [((1 : ℕ) : ℚ), ((1 : ℕ) : ℚ), ((1 : ℕ) : ℚ), ((1 : ℕ) : ℚ), ((1 : ℕ) : ℚ), ((1 : ℕ) : ℚ), ((1 : ℕ) : ℚ), ((1 : ℕ) : ℚ), ((1 : ℕ) : ℚ), ((1 : ℕ) : ℚ), ((1 : ℕ) : ℚ), ((1 : ℕ) : ℚ), ((1 : ℕ) : ℚ), ((1 : ℕ) : ℚ), ((1 : ℕ) : ℚ), ((1 : ℕ) : ℚ), ((1 : ℕ) : ℚ), ((1 : ℕ) : ℚ), ((1 : ℕ) : ℚ), ((1 : ℕ) : ℚ), ((1 : ℕ) : ℚ), ((1 : ℕ) : ℚ), ((1 : ℕ) : ℚ), ((1 : ℕ) : ℚ), ((1 : ℕ) : ℚ), ((1 : ℕ) : ℚ), ((1 : ℕ) : ℚ), ((1 : ℕ) : ℚ), ((1 : ℕ) : ℚ), ((2 : ℕ) : ℚ)] = some (1 / 30) := by
    norm_num [sampleVarQ, listMeanQ]
  have hstats : demand_stats 90 dsRopRound = [⟨1, 1, 31 / 30, 1 / 30, 30⟩] := by
    rw [demand_stats, hjoin, hdaily]
    unfold demand_stats_of
    rw [hkeys]
    simp only [List.map_cons, List.map_nil]
    rw [hvals, hmean, hvar]
    norm_num
  have hin : dsRopRound.inventory = [⟨1, 1, 5, 0, 3, 10⟩] := rfl
  have hpr : dsRopRound.products = [⟨1, "SKU1", "P1", 1, 1, 2, 1⟩] := rfl
  have hwh : dsRopRound.warehouses = [⟨1, "W1", "WhOne"⟩] := rfl
  have hlist : calculate_reorder_points (32897 / 20000) 90 dsRopRound =
      [reorder_row (32897 / 20000) ⟨1, 1, 31 / 30, 1 / 30, 30⟩ ⟨1, 1, 5, 0, 3, 10⟩
        ⟨1, "SKU1", "P1", 1, 1, 2, 1⟩ ⟨1, "W1", "WhOne"⟩] := by
    rw [calculate_reorder_points, hstats]
    norm_num [hin, hpr, hwh, List.filterMap_cons, List.find?_cons_of_pos,
      List.find?_cons_of_neg]
  have hes : ((32897 / 20000 : ℚ)) ^ 2 * ((((1 : ℕ) : ℚ)) * (1 / 30) +
      (31 / 30) ^ 2 * ((((1 : ℕ) : ℚ)) * (1 / 5)) ^ 2) =
      1851665773999 / 9000000000000 := by norm_num
  have hP : ((31 : ℚ) / 30) * (((1 : ℕ) : ℚ)) = 31 / 30 := by norm_num
  have hrop : (reorder_row (32897 / 20000) ⟨1, 1, 31 / 30, 1 / 30, 30⟩
      ⟨1, 1, 5, 0, 3, 10⟩ ⟨1, "SKU1", "P1", 1, 1, 2, 1⟩
      ⟨1, "W1", "WhOne"⟩).calculated_rop = 1 := by
    show npRoundAddSqrt ((31 / 30) * (((1 : ℕ) : ℚ))) ((32897 / 20000 : ℚ) ^ 2 *
      ((((1 : ℕ) : ℚ)) * (1 / 30) + (31 / 30) ^ 2 * ((((1 : ℕ) : ℚ)) * (1 / 5)) ^ 2)) = 1
    rw [hP, hes]
    exact npRoundAddSqrt_eq_of (31 / 30) (1851665773999 / 9000000000000) 1
      (by norm_num) (Or.inl (by norm_num)) (by norm_num) (by norm_num)
  have hmem : reorder_row (32897 / 20000) ⟨1, 1, 31 / 30, 1 / 30, 30⟩
      ⟨1, 1, 5, 0, 3, 10⟩ ⟨1, "SKU1", "P1", 1, 1, 2, 1⟩ ⟨1, "W1", "WhOne"⟩ ∈
      calculate_reorder_points (32897 / 20000) 90 dsRopRound := by
    rw [hlist]
    exact List.mem_singleton.mpr rfl
  have hineq := h (32897 / 20000) (by norm_num) (by norm_num) _ hmem
  have havg : (reorder_row (32897 / 20000) ⟨1, 1, 31 / 30, 1 / 30, 30⟩
      ⟨1, 1, 5, 0, 3, 10⟩ ⟨1, "SKU1", "P1", 1, 1, 2, 1⟩
      ⟨1, "W1", "WhOne"⟩).avg_daily_demand = 31 / 30 := rfl
  have hlt2 : (reorder_row (32897 / 20000) ⟨1, 1, 31 / 30, 1 / 30, 30⟩
      ⟨1, 1, 5, 0, 3, 10⟩ ⟨1, "SKU1", "P1", 1, 1, 2, 1⟩
      ⟨1, "W1", "WhOne"⟩).avg_lead_time = 1 := rfl
  rw [havg, hlt2, hrop] at hineq
  norm_num at hineq

set_option maxRecDepth 4000 in
theorem dsLeadTime_reorder_eval :
    calculate_reorder_points (329 / 200) 90 dsLeadTime =
      [reorder_row (329 / 200) ⟨1, 1, 3, (81 / 100 : ℚ), 1⟩ ⟨1, 1, 10, 0, 5, 10⟩
        ⟨1, "SKU1", "P1", 1, 1, 2, 5⟩ ⟨1, "W1", "WhOne"⟩] := by
  have hjoin : soJoin (recent_orders 90 dsLeadTime.sales_orders)
      dsLeadTime.sales_order_items =
      [(⟨1, 1, 100, "Delivered"⟩, ⟨1, 1, 3, 2⟩)] := by rfl
  have hdaily : daily_demand [(⟨1, 1, 100, "Delivered"⟩, ⟨1, 1, 3, 2⟩)] =
      [((1, 1), 100, 3)] := by rfl
  have hstats : demand_stats 90 dsLeadTime = [⟨1, 1, 3, (81 / 100 : ℚ), 1⟩] := by
    rw [demand_stats, hjoin, hdaily]
    norm_num [demand_stats_of, dedupFO, dedupSeen, List.contains, List.elem,
      listMeanQ, sampleVarQ]
  have hin : dsLeadTime.inventory = [⟨1, 1, 10, 0, 5, 10⟩] := rfl
  have hpr : dsLeadTime.products = [⟨1, "SKU1", "P1", 1, 1, 2, 5⟩] := rfl
  have hwh : dsLeadTime.warehouses = [⟨1, "W1", "WhOne"⟩] := rfl
  rw [calculate_reorder_points, hstats]
  norm_num [hin, hpr, hwh, List.filterMap_cons, List.find?_cons_of_pos,
    List.find?_cons_of_neg]

/-- C4 witness: the single reorder row of `dsLeadTime` at z = 1.645, and
the amended bounds hold on it by the theorem. -/
theorem C4_safety_rop_bounds_witness :
    calculate_reorder_points (329 / 200) 90 dsLeadTime ≠ [] ∧
    ∀ r ∈ calculate_reorder_points (329 / 200) 90 dsLeadTime,
      0 ≤ r.safety_stock ∧
      npRoundQ (r.avg_daily_demand * (r.avg_lead_time : ℚ)) ≤ r.calculated_rop ∧
      r.avg_daily_demand * (r.avg_lead_time : ℚ) - 1 / 2 ≤ (r.calculated_rop : ℚ) := by
  constructor
  · rw [dsLeadTime_reorder_eval]
    exact List.cons_ne_nil _ _
  · exact C4_safety_rop_bounds (329 / 200) 90 dsLeadTime (by norm_num)

/-- C1 (code-bug evidence): on `dsLeadTime` the supplier's delivered
purchase orders give a mean actual lead time of 10 days, yet the reorder
row for its product carries `avg_lead_time = 5`, the product's static
`lead_time_days` — the source computes the lead-time statistics table
and then overwrites `avg_lead_time`/`std_lead_time` with the static
values for every row, never merging the table it computed. -/
theorem C1_static_lead_time_used :
    (calculate_reorder_points (329 / 200) 90 dsLeadTime).map
      (fun r => r.avg_lead_time) = [5] ∧
    (supplier_lead_time_stats dsLeadTime).map
      (fun s => (s.supplier_id, s.avg_lead_time)) = [(1, 10)] ∧
    (5 : ℚ) ≠ 10 := by
  refine ⟨?_, ?_, by norm_num⟩
  · rw [dsLeadTime_reorder_eval]
    rfl
  · have hpo : dsLeadTime.purchase_orders =
        [⟨1, 1, 1, 0, 8, some 10, "Delivered"⟩,
         ⟨2, 1, 1, 20, 28, some 30, "Delivered"⟩] := rfl
    norm_num [supplier_lead_time_stats, hpo, dedupFO, dedupSeen, List.contains,
      List.elem, List.filterMap_cons, listMeanQ]

theorem abc_cumulate_last (aT bT total : ℚ) :
    ∀ (l : List AbcEntry) (acc : ℚ), l ≠ [] →
      ∃ e, (abc_cumulate aT bT total acc l).getLast? = some e ∧
        e.cumulative_pct = (acc + (l.map (fun x => x.total_revenue)).sum) / total * 100 ∧
        e.abc_class = assign_class aT bT e.cumulative_pct := by
  have hstep : ∀ (acc : ℚ) (x : AbcEntry) (l : List AbcEntry),
      abc_cumulate aT bT total acc (x :: l) =
        (⟨x.product_id, x.quantity_ordered, x.total_revenue,
          (acc + x.total_revenue) / total * 100,
          assign_class aT bT ((acc + x.total_revenue) / total * 100)⟩ : AbcClassEntry) ::
          abc_cumulate aT bT total (acc + x.total_revenue) l := fun _ _ _ => rfl
  intro l
  induction l with
  | nil =>
    intro acc h
    exact absurd rfl h
  | cons a t ih =>
    intro acc _
    cases t with
    | nil =>
      refine ⟨⟨a.product_id, a.quantity_ordered, a.total_revenue,
        (acc + a.total_revenue) / total * 100,
        assign_class aT bT ((acc + a.total_revenue) / total * 100)⟩, ?_, ?_, ?_⟩
      · rw [hstep acc a []]
        rfl
      · simp
      · rfl
    | cons b u =>
      obtain ⟨e, he1, he2, he3⟩ := ih (acc + a.total_revenue) (List.cons_ne_nil b u)
      refine ⟨e, ?_, ?_, he3⟩
      · rw [hstep acc a (b :: u), hstep (acc + a.total_revenue) b u,
          List.getLast?_cons_cons, ← hstep (acc + a.total_revenue) b u]
        exact he1
      · rw [he2]
        simp only [List.map_cons, List.sum_cons]
        ring

/-- C10: whenever the trailing-window revenue total is positive, the
product placed last in the descending revenue sort has
`cumulative_pct = 100` exactly and is classed `C` under the default
thresholds (80, 95) — including the case of a single product carrying
all the revenue, which is classed `C`, not `A`. -/
theorem C10_last_row_class_C (lookback : ℤ) (ds : Dataset)
    (hpos : 0 < abc_total_revenue lookback ds) :
    ∃ e, (abc_classified lookback 80 95 ds).getLast? = some e ∧
      e.cumulative_pct = 100 ∧ e.abc_class = "C" := by
  have htot : abc_total_revenue lookback ds =
      ((sortDescRev (abc_revenue_rows (soJoin (recent_orders lookback ds.sales_orders)
        ds.sales_order_items))).map (fun e => e.total_revenue)).sum := rfl
  rw [htot] at hpos
  set sorted := sortDescRev (abc_revenue_rows (soJoin (recent_orders lookback ds.sales_orders)
    ds.sales_order_items)) with hsorted
  have hne : sorted ≠ [] := by
    intro h0
    rw [h0] at hpos
    simp at hpos
  obtain ⟨e, he1, he2, he3⟩ := abc_cumulate_last 80 95
    ((sorted.map (fun e => e.total_revenue)).sum) sorted 0 hne
  have hl : abc_classified lookback 80 95 ds =
      abc_cumulate 80 95 ((sorted.map (fun e => e.total_revenue)).sum) 0 sorted := rfl
  refine ⟨e, by rw [hl]; exact he1, ?_, ?_⟩
  · rw [he2, zero_add, div_self (ne_of_gt hpos), one_mul]
  · rw [he3, he2, zero_add, div_self (ne_of_gt hpos), one_mul]
    norm_num [assign_class]

/-- C10 witness: `dsSingleRevenue` has one product with revenue 10; its
(only, hence last) classified row has cumulative percentage 100 and
class C, by the theorem. -/
theorem C10_last_row_class_C_witness :
    0 < abc_total_revenue 365 dsSingleRevenue ∧
    ∃ e, (abc_classified 365 80 95 dsSingleRevenue).getLast? = some e ∧
      e.cumulative_pct = 100 ∧ e.abc_class = "C" := by
  have hjoin : soJoin (recent_orders 365 dsSingleRevenue.sales_orders)
      dsSingleRevenue.sales_order_items = [(⟨1, 1, 0, "Delivered"⟩, ⟨1, 1, 5, 2⟩)] := by rfl
  have hrev : abc_revenue_rows [(⟨1, 1, 0, "Delivered"⟩, ⟨1, 1, 5, 2⟩)] =
      [⟨1, 5, 2, 10⟩] := by
    norm_num [abc_revenue_rows, dedupFO, dedupSeen, List.contains, List.elem, listMeanQ]
  have hpos : 0 < abc_total_revenue 365 dsSingleRevenue := by
    rw [abc_total_revenue, hjoin, hrev]
    norm_num [sortDescRev, insertDescRev]
  exact ⟨hpos, C10_last_row_class_C 365 dsSingleRevenue hpos⟩

theorem delete_cancelled_orders (ds : Dataset) :
    (delete_cancelled ds).sales_orders =
      ds.sales_orders.filter (fun o => o.status != "Cancelled") := rfl

theorem delete_cancelled_items (ds : Dataset) :
    (delete_cancelled ds).sales_order_items =
      ds.sales_order_items.filter (fun it =>
        !(ds.sales_orders.any (fun o => o.so_id == it.so_id && o.status == "Cancelled"))) := rfl

theorem delete_cancelled_products (ds : Dataset) :
    (delete_cancelled ds).products = ds.products := rfl

theorem soJoin_filter_status (orders : List SalesOrder) (items : List SalesOrderItem) :
    (soJoin orders items).filter (fun r => r.1.status != "Cancelled") =
      soJoin (orders.filter (fun o => o.status != "Cancelled")) items := by
  induction orders with
  | nil => rfl
  | cons o t ih =>
    simp only [soJoin, List.flatMap_cons, List.filter_append, List.filter_map,
      List.filter_cons] at ih ⊢
    rw [show ((fun (r : SalesOrder × SalesOrderItem) => r.1.status != "Cancelled") ∘
        (fun it => (o, it))) = (fun _ => (o.status != "Cancelled")) from rfl]
    cases hs : (o.status != "Cancelled") with
    | false => simp [hs, ih]
    | true => simp [hs, ih]

theorem soJoin_filter_items (orders L : List SalesOrder) (items : List SalesOrderItem)
    (hnd : (orders.map (fun o => o.so_id)).Nodup)
    (hL : ∀ o ∈ L, o ∈ orders ∧ o.status ≠ "Cancelled") :
    soJoin L (items.filter (fun it =>
      !(orders.any (fun o => o.so_id == it.so_id && o.status == "Cancelled")))) =
      soJoin L items := by
  induction L with
  | nil => rfl
  | cons o t ih =>
    have ho := hL o (List.mem_cons_self o t)
    simp only [soJoin, List.flatMap_cons]
    have hblock : (items.filter (fun it =>
        !(orders.any (fun o => o.so_id == it.so_id && o.status == "Cancelled")))).filter
          (fun it => it.so_id == o.so_id) =
        items.filter (fun it => it.so_id == o.so_id) := by
      rw [List.filter_filter]
      apply List.filter_congr
      intro it _
      cases hit : (it.so_id == o.so_id) with
      | false => simp [hit]
      | true =>
        simp only [hit, Bool.and_true, Bool.true_and]
        rw [Bool.not_eq_true']
        rw [List.any_eq_false]
        intro o' ho'
        intro habs
        rw [Bool.and_eq_true] at habs
        obtain ⟨h1, h2⟩ := habs
        rw [beq_iff_eq] at h1 h2
        have hso : o'.so_id = o.so_id := by
          rw [h1]
          exact beq_iff_eq.mp hit
        have : o' = o := List.inj_on_of_nodup_map hnd ho' ho.1 hso
        rw [this] at h2
        exact ho.2 h2
    rw [hblock]
    have ih2 := ih (fun o' ho' => hL o' (List.mem_cons_of_mem o ho'))
    simp only [soJoin] at ih2
    rw [ih2]

theorem recent_orders_filter_cancelled (lookback : ℤ) (orders : List SalesOrder)
    (hmax : maxOrderDate (orders.filter (fun o => o.status != "Cancelled")) =
      maxOrderDate orders) :
    recent_orders lookback (orders.filter (fun o => o.status != "Cancelled")) =
      recent_orders lookback orders := by
  unfold recent_orders
  rw [hmax]
  cases hm : maxOrderDate orders with
  | none => rfl
  | some m =>
    show (orders.filter (fun o => o.status != "Cancelled")).filter
        (fun o => decide (m - lookback ≤ o.order_date) && (o.status != "Cancelled")) =
      orders.filter (fun o => decide (m - lookback ≤ o.order_date) && (o.status != "Cancelled"))
    rw [List.filter_filter]
    apply List.filter_congr
    intro o _
    cases hs : (o.status != "Cancelled") with
    | false => simp [hs]
    | true => simp [hs]

theorem recent_orders_mem (lookback : ℤ) (orders : List SalesOrder) :
    ∀ o ∈ recent_orders lookback orders, o ∈ orders ∧ o.status ≠ "Cancelled" := by
  intro o ho
  unfold recent_orders at ho
  cases hm : maxOrderDate orders with
  | none =>
    rw [hm] at ho
    exact absurd ho (List.not_mem_nil o)
  | some m =>
    rw [hm] at ho
    rw [List.mem_filter] at ho
    obtain ⟨hmem, hcond⟩ := ho
    rw [Bool.and_eq_true] at hcond
    refine ⟨hmem, ?_⟩
    have := hcond.2
    simpa using this

theorem nsJoin_delete (ds : Dataset)
    (hnd : (ds.sales_orders.map (fun o => o.so_id)).Nodup) :
    nsJoin (delete_cancelled ds) = nsJoin ds := by
  unfold nsJoin
  rw [delete_cancelled_orders, delete_cancelled_items]
  rw [soJoin_filter_status, soJoin_filter_status]
  have hidem : (ds.sales_orders.filter (fun o => o.status != "Cancelled")).filter
      (fun o => o.status != "Cancelled") =
      ds.sales_orders.filter (fun o => o.status != "Cancelled") := by
    rw [List.filter_filter]
    apply List.filter_congr
    intro o _
    cases hs : (o.status != "Cancelled") with
    | false => simp [hs]
    | true => simp [hs]
  rw [hidem]
  apply soJoin_filter_items ds.sales_orders _ ds.sales_order_items hnd
  intro o ho
  rw [List.mem_filter] at ho
  refine ⟨ho.1, ?_⟩
  have := ho.2
  simpa using this

theorem recent_join_delete (lookback : ℤ) (ds : Dataset)
    (hnd : (ds.sales_orders.map (fun o => o.so_id)).Nodup)
    (hmax : maxOrderDate ((delete_cancelled ds).sales_orders) =
      maxOrderDate ds.sales_orders) :
    soJoin (recent_orders lookback (delete_cancelled ds).sales_orders)
        (delete_cancelled ds).sales_order_items =
      soJoin (recent_orders lookback ds.sales_orders) ds.sales_order_items := by
  rw [delete_cancelled_orders] at hmax ⊢
  rw [delete_cancelled_items]
  rw [recent_orders_filter_cancelled lookback ds.sales_orders hmax]
  exact soJoin_filter_items ds.sales_orders _ ds.sales_order_items hnd
    (recent_orders_mem lookback ds.sales_orders)

/-- C8 amended: deleting every cancelled sales order together with its
line items leaves the ABC classification, the turnover COGS table, the
reorder demand statistics, the EOQ annual demand and the daily demand
series unchanged, provided sales-order ids are unique (the schema's key
constraint) and the maximum order date is still attained after the
deletion — i.e. the latest order is not a cancelled one.  Without the
latter the trailing windows move, because the source anchors its cutoff
at the maximum over all orders, cancelled included. -/
theorem C8_cancelled_invariance (ds : Dataset)
    (hnd : (ds.sales_orders.map (fun o => o.so_id)).Nodup)
    (hmax : maxOrderDate ((delete_cancelled ds).sales_orders) =
      maxOrderDate ds.sales_orders) :
    (∀ (lookback : ℤ) (aT bT : ℚ),
      calculate_abc_classification lookback aT bT (delete_cancelled ds) =
        calculate_abc_classification lookback aT bT ds) ∧
    cogs_table (delete_cancelled ds) = cogs_table ds ∧
    (∀ lookback : ℤ,
      demand_stats lookback (delete_cancelled ds) = demand_stats lookback ds) ∧
    annual_demand_table (delete_cancelled ds) = annual_demand_table ds ∧
    (∀ pid wid : Option ℕ,
      prepare_demand_data pid wid (delete_cancelled ds) =
        prepare_demand_data pid wid ds) := by
  have hrj : ∀ lookback : ℤ,
      soJoin (recent_orders lookback (delete_cancelled ds).sales_orders)
        (delete_cancelled ds).sales_order_items =
      soJoin (recent_orders lookback ds.sales_orders) ds.sales_order_items :=
    fun lb => recent_join_delete lb ds hnd hmax
  have hns : nsJoin (delete_cancelled ds) = nsJoin ds := nsJoin_delete ds hnd
  refine ⟨?_, ?_, ?_, ?_, ?_⟩
  · intro lb aT bT
    unfold calculate_abc_classification abc_classified
    rw [hrj lb, delete_cancelled_products]
  · unfold cogs_table
    rw [hns, delete_cancelled_products]
  · intro lb
    unfold demand_stats
    rw [hrj lb]
  · unfold annual_demand_table
    rw [hns]
  · intro pid wid
    unfold prepare_demand_data
    rw [hns]

/-- C8 counterexample: in `dsCancelAnchor` the only cancelled order
holds the latest order date (day 400), anchoring the 365-day ABC window
past the sole real sale (day 0); deleting the cancelled order moves the
anchor to day 0 and the sale enters the window, so the ABC result
changes from empty to one classified row. -/
theorem C8_cancelled_anchor_counterexample :
    calculate_abc_classification 365 80 95 (delete_cancelled dsCancelAnchor) ≠
      calculate_abc_classification 365 80 95 dsCancelAnchor := by
  have h1 : calculate_abc_classification 365 80 95 dsCancelAnchor = [] := by rfl
  have hjoin : soJoin (recent_orders 365 (delete_cancelled dsCancelAnchor).sales_orders)
      (delete_cancelled dsCancelAnchor).sales_order_items =
      [(⟨2, 1, 0, "Delivered"⟩, ⟨2, 1, 5, 2⟩)] := by rfl
  have hrev : abc_revenue_rows [(⟨2, 1, 0, "Delivered"⟩, ⟨2, 1, 5, 2⟩)] =
      [⟨1, 5, 2, 10⟩] := by
    norm_num [abc_revenue_rows, dedupFO, dedupSeen, List.contains, List.elem, listMeanQ]
  have habc : abc_classified 365 80 95 (delete_cancelled dsCancelAnchor) =
      [⟨1, 5, 10, 100, "C"⟩] := by
    simp only [abc_classified]
    rw [hjoin, hrev]
    rw [show sortDescRev [(⟨1, 5, 2, 10⟩ : AbcEntry)] = [⟨1, 5, 2, 10⟩] from rfl]
    norm_num [abc_cumulate, assign_class]
  have h2 : calculate_abc_classification 365 80 95 (delete_cancelled dsCancelAnchor) ≠ [] := by
    have hpr : dsCancelAnchor.products = [⟨1, "SKU1", "P1", 1, 2, 5, 3⟩] := rfl
    unfold calculate_abc_classification
    rw [habc]
    simp [delete_cancelled_products, hpr, List.filterMap_cons, List.find?_cons_of_pos]
  intro habs
  rw [h1] at habs
  exact h2 habs

/-- C8 witness: in `dsCancelSafe` the cancelled order is not the latest;
order ids are distinct, the anchor is unchanged, and the theorem gives
the invariance of the COGS table and the demand series. -/
theorem C8_cancelled_invariance_witness :
    ((dsCancelSafe.sales_orders.map (fun o => o.so_id)).Nodup ∧
      maxOrderDate ((delete_cancelled dsCancelSafe).sales_orders) =
        maxOrderDate dsCancelSafe.sales_orders) ∧
    cogs_table (delete_cancelled dsCancelSafe) = cogs_table dsCancelSafe ∧
    prepare_demand_data none none (delete_cancelled dsCancelSafe) =
      prepare_demand_data none none dsCancelSafe := by
  have hnd : (dsCancelSafe.sales_orders.map (fun o => o.so_id)).Nodup := by
    rw [show dsCancelSafe.sales_orders.map (fun o => o.so_id) = [1, 2] from rfl]
    decide
  have hmax : maxOrderDate ((delete_cancelled dsCancelSafe).sales_orders) =
      maxOrderDate dsCancelSafe.sales_orders := by rfl
  obtain ⟨_, hcogs, _, _, hprep⟩ := C8_cancelled_invariance dsCancelSafe hnd hmax
  exact ⟨⟨hnd, hmax⟩, hcogs, hprep none none⟩
